import Mathlib

/-!
Shallow embedding of the core library of `nextdns-profile-cloner`
(src/source/core: sync-lists.ts, diff-profiles.ts, copy-profile.ts,
manage-domain.ts) and proofs about it.

JS runtime values are modelled by the inductive `Val`; JS objects
(`Record<string, T>`) are association lists in insertion order (a JS object
cannot hold the same key twice); remote calls are abstracted by environment
structures whose fields give each call's outcome (`Option`/`Except` for
fallible calls), so that every ported function is a pure, executable Lean
function over its environment.
-/

namespace NextDNS

/-- A JS runtime value: undefined, null, booleans, numbers (integral values
suffice for every comparison the ported code performs), strings, arrays and
plain objects (fields in insertion order). -/
inductive Val where
  | vUndef
  | vNull
  | vBool (b : Bool)
  | vNum (n : Int)
  | vStr (s : String)
  | vArr (elems : List Val)
  | vObj (fields : List (String × Val))

mutual
/-- Structural (JS `===` on primitives, deep on composites) equality test. -/
def Val.beq : Val → Val → Bool
  | .vUndef, .vUndef => true
  | .vNull, .vNull => true
  | .vBool x, .vBool y => x == y
  | .vNum x, .vNum y => x == y
  | .vStr x, .vStr y => x == y
  | .vArr x, .vArr y => Val.beqList x y
  | .vObj x, .vObj y => Val.beqFields x y
  | _, _ => false

/-- Elementwise `Val.beq` on arrays. -/
def Val.beqList : List Val → List Val → Bool
  | [], [] => true
  | x :: xs, y :: ys => Val.beq x y && Val.beqList xs ys
  | _, _ => false

/-- Fieldwise `Val.beq` on object fields. -/
def Val.beqFields : List (String × Val) → List (String × Val) → Bool
  | [], [] => true
  | (k, v) :: xs, (k', v') :: ys => k == k' && Val.beq v v' && Val.beqFields xs ys
  | _, _ => false
end

mutual
/-- `Val.beq` decides equality. -/
def Val.beqIff : ∀ (a b : Val), Val.beq a b = true ↔ a = b
  | a, b => by
    cases a <;> cases b <;>
      simp only [Val.beq, Val.vBool.injEq, Val.vNum.injEq, Val.vStr.injEq,
        Val.vArr.injEq, Val.vObj.injEq, beq_iff_eq, reduceCtorEq,
        Bool.false_eq_true, iff_self, iff_false, not_false_eq_true] <;>
      first
      | rfl
      | exact fun h => Val.noConfusion h
      | exact Val.beqListIff ..
      | exact Val.beqFieldsIff ..

/-- `Val.beqList` decides equality of arrays. -/
def Val.beqListIff : ∀ (xs ys : List Val), Val.beqList xs ys = true ↔ xs = ys
  | [], [] => by simp [Val.beqList]
  | x :: xs, y :: ys => by
    simp only [Val.beqList, Bool.and_eq_true, List.cons.injEq]
    exact and_congr (Val.beqIff x y) (Val.beqListIff xs ys)
  | [], _ :: _ => by simp [Val.beqList]
  | _ :: _, [] => by simp [Val.beqList]

/-- `Val.beqFields` decides equality of field lists. -/
def Val.beqFieldsIff : ∀ (xs ys : List (String × Val)),
    Val.beqFields xs ys = true ↔ xs = ys
  | [], [] => by simp [Val.beqFields]
  | (k, v) :: xs, (k', v') :: ys => by
    simp only [Val.beqFields, Bool.and_eq_true, List.cons.injEq, Prod.mk.injEq,
      beq_iff_eq, Val.beqIff v v', Val.beqFieldsIff xs ys, and_assoc]
  | [], _ :: _ => by simp [Val.beqFields]
  | _ :: _, [] => by simp [Val.beqFields]
end

instance : DecidableEq Val := fun a b => decidable_of_iff _ (Val.beqIff a b)

/-- JS truthiness. -/
def truthy : Val → Bool
  | .vUndef => false
  | .vNull => false
  | .vBool b => b
  | .vNum n => decide (n ≠ 0)
  | .vStr s => decide (s ≠ "")
  | .vArr _ => true
  | .vObj _ => true

/-- Key lookup in an association list: reading `obj[key]` of a JS object kept
in insertion order (`none` when the key is absent). -/
def lookupKey {α : Type} (d : String) : List (String × α) → Option α
  | [] => none
  | e :: rest => if e.1 = d then some e.2 else lookupKey d rest

/-- Property access `v.k` on a JS value: the field's value on objects,
undefined on everything else or when the key is absent. -/
def getFieldD (v : Val) (k : String) : Val :=
  match v with
  | .vObj kvs => (lookupKey k kvs).getD .vUndef
  | _ => (.vUndef)

/-- `Object.keys`: an object's keys in insertion order, an array's index
strings, empty for primitives. -/
def jsKeys : Val → List String
  | .vObj kvs => kvs.map Prod.fst
  | .vArr l => (List.range l.length).map (fun i => toString i)
  | _ => []

mutual
/-- JS `String(x)` conversion (arrays join their elements with commas, with
null and undefined elements rendered empty, per `Array.prototype.toString`). -/
def Val.jsStr : Val → String
  | .vUndef => "undefined"
  | .vNull => "null"
  | .vBool true => "true"
  | .vBool false => "false"
  | .vNum n => toString n
  | .vStr s => s
  | .vArr l => String.intercalate "," (Val.jsStrArrItems l)
  | .vObj _ => "[object Object]"

/-- Stringified array elements for `Val.jsStr`. -/
def Val.jsStrArrItems : List Val → List String
  | [] => []
  | .vUndef :: rest => "" :: Val.jsStrArrItems rest
  | .vNull :: rest => "" :: Val.jsStrArrItems rest
  | v :: rest => Val.jsStr v :: Val.jsStrArrItems rest
end

/-- One character of a JSON string literal body. -/
def jsonEscapeChar (c : Char) : String :=
  if c = '"' then "\\\""
  else if c = '\\' then "\\\\"
  else if c = '\n' then "\\n"
  else if c = '\r' then "\\r"
  else if c = '\t' then "\\t"
  else String.singleton c

/-- Body of a JSON string literal. -/
def jsonEscape (s : String) : String :=
  String.join (s.data.map jsonEscapeChar)

/-- A JSON string literal. -/
def jsonQuote (s : String) : String :=
  "\"" ++ jsonEscape s ++ "\""

mutual
/-- `JSON.stringify`: `none` models the undefined result on undefined input;
undefined array elements render as null, undefined object fields are omitted. -/
def Val.jsonStringify : Val → Option String
  | .vUndef => none
  | .vNull => some "null"
  | .vBool true => some "true"
  | .vBool false => some "false"
  | .vNum n => some (toString n)
  | .vStr s => some (jsonQuote s)
  | .vArr l => some ("[" ++ String.intercalate "," (Val.jsonArrItems l) ++ "]")
  | .vObj kvs => some ("\x7b" ++ String.intercalate "," (Val.jsonObjItems kvs) ++ "\x7d")

/-- Rendered array elements for `Val.jsonStringify`. -/
def Val.jsonArrItems : List Val → List String
  | [] => []
  | v :: rest => (Val.jsonStringify v).getD "null" :: Val.jsonArrItems rest

/-- Rendered object fields for `Val.jsonStringify`. -/
def Val.jsonObjItems : List (String × Val) → List String
  | [] => []
  | (k, v) :: rest =>
    match Val.jsonStringify v with
    | none => Val.jsonObjItems rest
    | some s => (jsonQuote k ++ ":" ++ s) :: Val.jsonObjItems rest
end

/-- `Array.prototype.join(', ')`. -/
def joinComma : List String → String
  | [] => ""
  | [s] => s
  | s :: rest => s ++ ", " ++ joinComma rest

/-- Lexicographic strict order on character lists: the comparison JS's default
sort comparator performs on the strings it converts its arguments to. -/
def charListLtB : List Char → List Char → Bool
  | [], [] => false
  | [], _ :: _ => true
  | _ :: _, [] => false
  | a :: as, b :: bs => if a = b then charListLtB as bs else decide (a < b)

/-- Non-strict string comparison used by the stable-sort model. -/
def strLeB (a b : String) : Bool := !(charListLtB b.data a.data)

/-- Stable insertion for `sortStrings`. -/
def insertStr (x : String) : List String → List String
  | [] => [x]
  | y :: ys => if strLeB x y then x :: y :: ys else y :: insertStr x ys

/-- JS `Array.prototype.sort()` on an array of strings: a stable sort by the
default (lexicographic) comparator, modelled as stable insertion sort. -/
def sortStrings : List String → List String
  | [] => []
  | x :: xs => insertStr x (sortStrings xs)

/-- Stable insertion for `sortValsBy`. -/
def insertValBy (key : Val → String) (x : Val) : List Val → List Val
  | [] => [x]
  | y :: ys => if strLeB (key x) (key y) then x :: y :: ys else y :: insertValBy key x ys

/-- JS `Array.prototype.sort()` on arbitrary values: a stable sort whose
default comparator compares `String(x)` images, modelled as stable insertion
sort on the `key` images. -/
def sortValsBy (key : Val → String) : List Val → List Val
  | [] => []
  | x :: xs => insertValBy key x (sortValsBy key xs)

/-- One insertion step of a JS `Set` of strings (insertion order, first
occurrence kept). -/
def insertNewStr (acc : List String) (k : String) : List String :=
  if k ∈ acc then acc else acc ++ [k]

/-- JS `Set` of strings built from a list: deduplicate keeping each element's
first occurrence, in insertion order. -/
def dedupFirst (l : List String) : List String :=
  l.foldl insertNewStr []

/-- One insertion step of a JS `Set` of values. -/
def insertNewVal (acc : List Val) (k : Val) : List Val :=
  if k ∈ acc then acc else acc ++ [k]

/-- JS `Set` of values built from a list (structural equality stands in for
SameValueZero, which agrees with it on the primitive members that occur). -/
def dedupFirstVal (l : List Val) : List Val :=
  l.foldl insertNewVal []

/-- Assignment `obj[k] = v` on a JS object: overwrite in place, else append. -/
def setKey {α : Type} : List (String × α) → String → α → List (String × α)
  | [], k, v => [(k, v)]
  | e :: rest, k, v => if e.1 = k then (e.1, v) :: rest else e :: setKey rest k v

/-- `Object.fromEntries`: first-occurrence key order, last-occurrence value. -/
def jsFromEntries {α : Type} (l : List (String × α)) : List (String × α) :=
  l.foldl (fun acc e => setKey acc e.1 e.2) []

/-- Does `pat` stand at the head of `l`? -/
def charListIsPrefixB : List Char → List Char → Bool
  | [], _ => true
  | _ :: _, [] => false
  | p :: ps, c :: cs => p = c && charListIsPrefixB ps cs

/-- Does `pat` occur inside `l`? -/
def charListHasSub (pat : List Char) : List Char → Bool
  | [] => charListIsPrefixB pat []
  | c :: cs => charListIsPrefixB pat (c :: cs) || charListHasSub pat cs

/-- JS `String.prototype.includes`. -/
def strIncludes (s pat : String) : Bool := charListHasSub pat.data s.data

/-- JS `String.prototype.toLowerCase` (ASCII suffices for the ported code). -/
def jsToLower (s : String) : String := String.mk (s.data.map Char.toLower)

/-! ## sync-lists.ts -/

/-- The string union `'allowlist' | 'denylist'`. -/
inductive ListType where
  | denylist
  | allowlist
deriving DecidableEq

/-- `ProfileListData` (sync-lists.ts): one profile's name, denylist and
allowlist; the JS `Record<string, boolean>` maps are association lists in
insertion order. -/
structure ProfileListData where
  name : String
  denylist : List (String × Bool)
  allowlist : List (String × Bool)
deriving DecidableEq

/-- Indexing `pdata[listType]`. -/
def ProfileListData.listOf (p : ProfileListData) : ListType → List (String × Bool)
  | .denylist => p.denylist
  | .allowlist => p.allowlist

/-- Increment the enabled or disabled counter of one domain's tally. -/
def bumpPair (c : Nat × Nat) (active : Bool) : Nat × Nat :=
  if active then (c.1 + 1, c.2) else (c.1, c.2 + 1)

/-- One step of the `domainStates` tally of `getCanonicalDomains`:
`domainStates[domain]` is created as zero counters if missing (the key is
appended in insertion order) and the matching counter is incremented. -/
def bumpTally : List (String × (Nat × Nat)) → String → Bool → List (String × (Nat × Nat))
  | [], domain, active => [(domain, bumpPair (0, 0) active)]
  | e :: rest, domain, active =>
    if e.1 = domain then (e.1, bumpPair e.2 active) :: rest
    else e :: bumpTally rest domain active

/-- `domainStates` after the nested for-of loops of `getCanonicalDomains`
walked every profile's list of the given type. -/
def tallyDomains (allData : List (String × ProfileListData)) (listType : ListType) :
    List (String × (Nat × Nat)) :=
  allData.foldl
    (fun ds pd => (pd.2.listOf listType).foldl (fun ds e => bumpTally ds e.1 e.2) ds) []

/-- Port of `getCanonicalDomains` (sync-lists.ts): tally each observed domain's
enabled and disabled counts across all profiles, then map each tally to
`counts.enabled >= counts.disabled` (majority wins, enabled wins ties). -/
def getCanonicalDomains (allData : List (String × ProfileListData)) (listType : ListType) :
    List (String × Bool) :=
  (tallyDomains allData listType).map (fun e => (e.1, decide (e.2.2 ≤ e.2.1)))

/-- `SyncOperation` (types.ts); `type` holds `"add"` or `"update"`. -/
structure SyncOperation where
  type : String
  profileId : String
  profileName : String
  domain : String
  shouldBeActive : Bool
  listType : ListType
deriving DecidableEq

/-- The `{toAdd, toUpdate}` pair `calculateSyncOperations` accumulates. -/
structure SyncOps where
  toAdd : List SyncOperation
  toUpdate : List SyncOperation
deriving DecidableEq

/-- The body of the inner profile loop of `calculateSyncOperations`: push an
add when the profile lacks the domain, an update when its flag differs,
nothing otherwise. -/
def calcStep (listType : ListType) (c : String × Bool) (acc : SyncOps)
    (pd : String × ProfileListData) : SyncOps :=
  match lookupKey c.1 (pd.2.listOf listType) with
  | none =>
    { acc with toAdd := acc.toAdd ++ [⟨"add", pd.1, pd.2.name, c.1, c.2, listType⟩] }
  | some currentState =>
    if currentState ≠ c.2 then
      { acc with
        toUpdate := acc.toUpdate ++ [⟨"update", pd.1, pd.2.name, c.1, c.2, listType⟩] }
    else acc

/-- Port of `calculateSyncOperations` (sync-lists.ts): for every canonical
entry, in order, and every profile, in order, run `calcStep`. -/
def calculateSyncOperations (allData : List (String × ProfileListData))
    (canonical : List (String × Bool)) (listType : ListType) : SyncOps :=
  canonical.foldl (fun acc c => allData.foldl (calcStep listType c) acc) ⟨[], []⟩

/-- Spec-side description of C2's add operations for one canonical entry: one
add per profile that lacks the domain, targeting the canonical value. -/
def specAddOps (allData : List (String × ProfileListData)) (listType : ListType)
    (c : String × Bool) : List SyncOperation :=
  allData.filterMap (fun pd =>
    match lookupKey c.1 (pd.2.listOf listType) with
    | none => some ⟨"add", pd.1, pd.2.name, c.1, c.2, listType⟩
    | some _ => none)

/-- Spec-side description of C2's update operations for one canonical entry:
one update per profile that holds the domain with a different flag. -/
def specUpdateOps (allData : List (String × ProfileListData)) (listType : ListType)
    (c : String × Bool) : List SyncOperation :=
  allData.filterMap (fun pd =>
    match lookupKey c.1 (pd.2.listOf listType) with
    | none => none
    | some currentState =>
      if currentState ≠ c.2 then some ⟨"update", pd.1, pd.2.name, c.1, c.2, listType⟩
      else none)

/-- How many of the given profiles hold the domain in the given list. -/
def profilesContaining (allData : List (String × ProfileListData)) (listType : ListType)
    (d : String) : Nat :=
  (allData.map Prod.snd).countP (fun p => (lookupKey d (p.listOf listType)).isSome)

/-- How many of the given profiles hold the domain with `active = true`. -/
def enabledCount (allData : List (String × ProfileListData)) (listType : ListType)
    (d : String) : Nat :=
  (allData.map Prod.snd).countP (fun p => lookupKey d (p.listOf listType) == some true)

/-- How many of the given profiles hold the domain with `active = false`. -/
def disabledCount (allData : List (String × ProfileListData)) (listType : ListType)
    (d : String) : Nat :=
  (allData.map Prod.snd).countP (fun p => lookupKey d (p.listOf listType) == some false)

/-! ## diff-profiles.ts -/

/-- `ProfileDiffData` (diff-profiles.ts): flat denylist/allowlist maps plus the
raw section objects. -/
structure ProfileDiffData where
  name : String
  denylist : List (String × Bool)
  allowlist : List (String × Bool)
  security : Val
  privacy : Val
  parentalControl : Val
  settings : Val
deriving DecidableEq

/-- Indexing `allData[pid][listType]`. -/
def ProfileDiffData.listOf (p : ProfileDiffData) : ListType → List (String × Bool)
  | .denylist => p.denylist
  | .allowlist => p.allowlist

/-- The section names the diff row generators are called with (the
`keyof ProfileDiffData` arguments used by diff-profiles.ts). -/
inductive SectionName where
  | security
  | privacy
  | parentalControl
  | settings
deriving DecidableEq

/-- Indexing `allData[pid][sectionName]`. -/
def ProfileDiffData.sectionOf (p : ProfileDiffData) : SectionName → Val
  | .security => p.security
  | .privacy => p.privacy
  | .parentalControl => p.parentalControl
  | .settings => p.settings

/-- `DiffRow` (diff-profiles.ts): label, per-profile formatted cell (in
profile order) and the difference flag. -/
structure DiffRow where
  label : String
  values : List (String × String)
  hasDiff : Bool
deriving DecidableEq

/-- `DiffTable` (diff-profiles.ts). -/
structure DiffTable where
  title : String
  legend : Option String
  rows : List DiffRow
  diffCount : Nat
deriving DecidableEq

/-- Port of `formatValue` (diff-profiles.ts) at the default width 12:
null/undefined dash, boolean marks, array length, object placeholder, strings
truncated with an ellipsis marker. -/
def formatValue (value : Val) : String :=
  match value with
  | .vUndef => "-"
  | .vNull => "-"
  | .vBool true => "✓"
  | .vBool false => "✗"
  | .vArr l => toString l.length
  | .vObj _ => "\x7b...\x7d"
  | other =>
    let str := other.jsStr
    if 12 < str.data.length then String.mk (str.data.take 10) ++ ".." else str

/-- Is the value a JS object in the `typeof val === 'object' && val !== null`
sense (arrays included, null excluded)? -/
def isObjectNonNull : Val → Bool
  | .vObj _ => true
  | .vArr _ => true
  | _ => false

/-- `item.id || String(item)`: the item's truthy id, else its string image
(also the branch taken when the item is no object and has no properties). -/
def idOrString (item : Val) : Val :=
  match item with
  | .vObj kvs =>
    match lookupKey "id" kvs with
    | some v => if truthy v then v else .vStr item.jsStr
    | none => .vStr item.jsStr
  | other => .vStr other.jsStr

/-- Port of `normalizeListForComparison` (diff-profiles.ts): non-arrays are
JSON-stringified as they are; an empty array is `[]`; a non-empty array whose
first element is an object has its elements' ids extracted
(`item.id || String(item)`) and sorted; any other array is sorted directly;
the sorted array is JSON-stringified. -/
def normalizeListForComparison (val : Val) : Option String :=
  match val with
  | .vArr [] => some "[]"
  | .vArr (v₀ :: rest) =>
    if isObjectNonNull v₀ then
      Val.jsonStringify (.vArr (sortValsBy Val.jsStr ((v₀ :: rest).map idOrString)))
    else
      Val.jsonStringify (.vArr (sortValsBy Val.jsStr (v₀ :: rest)))
  | v => Val.jsonStringify v

/-- Reading `section?.[field]` where `section` is one of the raw section
values: the field on objects, undefined otherwise. -/
def sectionGet (v : Val) (field : String) : Val := getFieldD v field

/-- One row of `compareSettings` (diff-profiles.ts): formatted cells, and
`hasDiff` exactly when not every profile's `normalizeListForComparison` image
equals the first profile's. -/
def mkSettingsRow (allData : List (String × ProfileDiffData)) (sectionName : SectionName)
    (field : String) : DiffRow :=
  let values := allData.map (fun pd => (pd.1, formatValue (sectionGet (pd.2.sectionOf sectionName) field)))
  let compareValues := allData.map (fun pd =>
    normalizeListForComparison (sectionGet (pd.2.sectionOf sectionName) field))
  ⟨field, values, !(compareValues.all (fun v => v == compareValues.headD none))⟩

/-- Port of `compareSettings` (diff-profiles.ts). -/
def compareSettings (allData : List (String × ProfileDiffData)) (sectionName : SectionName)
    (fields : List String) : List DiffRow :=
  fields.map (mkSettingsRow allData sectionName)

/-- One row of `compareDenylistAllowlist` for a domain in the union: `-`, `✓`
or `✗` cells; `hasDiff` when some profile misses the domain or the present
flags disagree. -/
def mkDomainRow (allData : List (String × ProfileDiffData)) (listType : ListType)
    (domain : String) : DiffRow :=
  let values := allData.map (fun pd =>
    match lookupKey domain (pd.2.listOf listType) with
    | none => (pd.1, "-")
    | some true => (pd.1, "✓")
    | some false => (pd.1, "✗"))
  let states : List (Option Bool) := allData.map (fun pd => lookupKey domain (pd.2.listOf listType))
  let nonNull := states.filterMap id
  ⟨domain, values,
    states.any (fun s => s == none) ||
      (decide (0 < nonNull.length) && !(nonNull.all (fun s => s == nonNull.headD false)))⟩

/-- Port of `compareDenylistAllowlist` (diff-profiles.ts): one row per domain
of the (insertion-ordered, then sorted) union of all profiles' domains. -/
def compareDenylistAllowlist (allData : List (String × ProfileDiffData))
    (listType : ListType) : List DiffRow :=
  let allDomains := dedupFirst (allData.flatMap (fun pd => (pd.2.listOf listType).map Prod.fst))
  if allDomains = [] then []
  else (sortStrings allDomains).map (mkDomainRow allData listType)

/-- The element list of an array value, empty otherwise. -/
def arrElems : Val → List Val
  | .vArr l => l
  | _ => []

/-- One entry of the per-profile `itemMap` of `compareListItems`: objects are
keyed by `String(obj.id || item)` and stored as they are, other items are
keyed by their string image and stored as a synthesized `{id}` object. -/
def listItemMapEntry (item : Val) : String × Val :=
  match item with
  | .vObj _ => ((idOrString item).jsStr, item)
  | other => (other.jsStr, Val.vObj [("id", .vStr other.jsStr)])

/-- One profile's `itemMap` for `compareListItems`. -/
def listItemMap (sectionName : SectionName) (field : String)
    (pd : String × ProfileDiffData) : List (String × Val) :=
  jsFromEntries ((arrElems (sectionGet (pd.2.sectionOf sectionName) field)).map listItemMapEntry)

/-- One profile's state for `compareListItems`: null sentinel when absent, the
raw active value when the section has an active flag, true otherwise. -/
def listItemState (sectionName : SectionName)
    (field : String) (hasActiveField : Bool) (itemId : String) (pd : String × ProfileDiffData) :
    Val :=
  match lookupKey itemId (listItemMap sectionName field pd) with
  | none => .vNull
  | some item => if hasActiveField then getFieldD item "active" else .vBool true

/-- Port of `compareListItems` (diff-profiles.ts), used for blocklists,
natives, services and categories: union of item ids across profiles, one row
per id, `hasDiff` when not every profile's state equals the first's. -/
def compareListItems (allData : List (String × ProfileDiffData)) (sectionName : SectionName)
    (field : String) (hasActiveField : Bool) : List DiffRow :=
  let allItems := dedupFirstVal (allData.flatMap (fun pd =>
    (arrElems (sectionGet (pd.2.sectionOf sectionName) field)).map idOrString))
  if allItems = [] then []
  else
    (sortValsBy Val.jsStr allItems).map (fun itemVal =>
      let itemId := itemVal.jsStr
      let states := allData.map (listItemState sectionName field hasActiveField itemId)
      let values := allData.map (fun pd =>
        match lookupKey itemId (listItemMap sectionName field pd) with
        | none => (pd.1, "-")
        | some item =>
          if hasActiveField then (pd.1, if truthy (getFieldD item "active") then "✓" else "✗")
          else (pd.1, "✓"))
      ⟨itemId, values, !(states.all (fun s => s == states.headD Val.vNull))⟩)

/-- One row of `compareNestedSettings` for a `field.subfield` label. -/
def mkNestedRow (allData : List (String × ProfileDiffData)) (sectionName : SectionName)
    (field subfield : String) : DiffRow :=
  let values := allData.map (fun pd =>
    (pd.1, formatValue (sectionGet (sectionGet (pd.2.sectionOf sectionName) field) subfield)))
  let compareValues := allData.map (fun pd =>
    normalizeListForComparison (sectionGet (sectionGet (pd.2.sectionOf sectionName) field) subfield))
  ⟨field ++ "." ++ subfield, values, !(compareValues.all (fun v => v == compareValues.headD none))⟩

/-- Port of `compareNestedSettings` (diff-profiles.ts): the first profile's
section is the sample; a field whose sample value is a plain object expands
into one row per sorted subfield, anything else yields a flat row. -/
def compareNestedSettings (allData : List (String × ProfileDiffData))
    (sectionName : SectionName) (fields : List String) : List DiffRow :=
  let sample := (allData.head?.map (fun pd => pd.2.sectionOf sectionName)).getD .vUndef
  fields.flatMap (fun field =>
    match sectionGet sample field with
    | .vObj kvs =>
      (sortStrings (kvs.map Prod.fst)).map (fun subfield =>
        mkNestedRow allData sectionName field subfield)
    | _ => [mkSettingsRow allData sectionName field])

/-- The `section` CLI/API argument of the diff engine. -/
inductive DiffSection where
  | all
  | security
  | privacy
  | parental
  | settings
  | lists
deriving DecidableEq

/-- Port of `createTable` (diff-profiles.ts): filter rows post-hoc when
`diffOnly`, drop empty tables, count differences over the full row set. -/
def createTable (diffOnly : Bool) (title : String) (rows : List DiffRow)
    (legend : Option String) : Option DiffTable :=
  let displayRows := if diffOnly then rows.filter (fun r => r.hasDiff) else rows
  if displayRows = [] then none
  else some ⟨title, legend, displayRows, (rows.filter (fun r => r.hasDiff)).length⟩

/-- The twelve security flag fields compared by the diff engine. -/
def securityFields : List String :=
  ["threatIntelligenceFeeds", "aiThreatDetection", "googleSafeBrowsing", "cryptojacking",
   "dnsRebinding", "idnHomographs", "typosquatting", "dga", "nrd", "ddns", "parking", "csam"]

/-- Port of `generateDiffTables` (diff-profiles.ts): the tables of every
requested section, in source push order (the source's `section` parameter is
`sct` here, `section` being a Lean keyword). -/
def generateDiffTables (allData : List (String × ProfileDiffData)) (sct : DiffSection)
    (diffOnly : Bool) : List DiffTable :=
  (if sct = .all ∨ sct = .security then
    (createTable diffOnly "Security Settings"
      (compareSettings allData .security securityFields) none).toList
  else []) ++
  (if sct = .all ∨ sct = .privacy then
    (createTable diffOnly "Privacy Settings"
      (compareSettings allData .privacy ["disguisedTrackers", "allowAffiliate"]) none).toList ++
    (createTable diffOnly "Blocklists"
      (compareListItems allData .privacy "blocklists" false)
      (some "Legend: ✓=enabled, -=not enabled")).toList ++
    (createTable diffOnly "Native Tracking Protection"
      (compareListItems allData .privacy "natives" false)
      (some "Legend: ✓=enabled, -=not enabled")).toList
  else []) ++
  (if sct = .all ∨ sct = .parental then
    (createTable diffOnly "Parental Control Settings"
      (compareSettings allData .parentalControl
        ["safeSearch", "youtubeRestrictedMode", "blockBypass"]) none).toList ++
    (createTable diffOnly "Blocked Services"
      (compareListItems allData .parentalControl "services" true)
      (some "Legend: ✓=blocked (active), ✗=in list but disabled, -=not in list")).toList ++
    (createTable diffOnly "Blocked Categories"
      (compareListItems allData .parentalControl "categories" true)
      (some "Legend: ✓=blocked (active), ✗=in list but disabled, -=not in list")).toList
  else []) ++
  (if sct = .all ∨ sct = .settings then
    (createTable diffOnly "General Settings"
      (compareNestedSettings allData .settings ["logs", "blockPage", "performance", "web3"])
      none).toList
  else []) ++
  (if sct = .all ∨ sct = .lists then
    (createTable diffOnly "Denylist"
      (compareDenylistAllowlist allData .denylist)
      (some "Legend: ✓=enabled, ✗=disabled, -=missing")).toList ++
    (createTable diffOnly "Allowlist"
      (compareDenylistAllowlist allData .allowlist)
      (some "Legend: ✓=enabled, ✗=disabled, -=missing")).toList
  else [])

/-! ## copy-profile.ts -/

/-- The root-level known fields of `validateApiSchema`. -/
def knownRoot : List String :=
  ["id", "fingerprint", "name", "setup", "security", "privacy", "parentalControl",
   "denylist", "allowlist", "settings", "rewrites"]

/-- The security known fields (the twelve flags plus tlds). -/
def knownSecurity : List String := securityFields ++ ["tlds"]

/-- The privacy known fields. -/
def knownPrivacy : List String :=
  ["disguisedTrackers", "allowAffiliate", "blocklists", "natives"]

/-- The parentalControl known fields. -/
def knownParentalControl : List String :=
  ["safeSearch", "youtubeRestrictedMode", "blockBypass", "services", "categories",
   "recreation"]

/-- The settings known fields. -/
def knownSettings : List String := ["logs", "blockPage", "performance", "web3", "bav"]

/-- The settings.logs known fields. -/
def knownSettingsLogs : List String := ["enabled", "drop", "retention", "location"]

/-- The settings.performance known fields. -/
def knownSettingsPerformance : List String := ["ecs", "cacheBoost", "cnameFlattening"]

/-- The root-level intentionally skipped fields. -/
def skippedRoot : List String := ["id", "fingerprint", "setup"]

/-- The parentalControl intentionally skipped fields. -/
def skippedParentalControl : List String := ["recreation"]

/-- The warning string `checkFields` pushes for one section. -/
def warningFor (path : String) (unknown : List String) : String :=
  "Unknown field(s) at '" ++ path ++ "': " ++ joinComma unknown

/-- Port of the `checkFields` closure of `validateApiSchema`: on an object,
one warning naming every key outside the known and skipped sets; nothing on
primitives. -/
def checkFields (data : Val) (known skipped : List String) (path : String) : List String :=
  if isObjectNonNull data then
    let unknown := (jsKeys data).filter (fun k => !known.contains k && !skipped.contains k)
    if unknown = [] then [] else [warningFor path unknown]
  else []

/-- Port of `validateApiSchema` (copy-profile.ts): check the root, then each
truthy section (security, privacy, parentalControl, settings, and under a
truthy settings its truthy logs and performance), collecting warnings in
traversal order. -/
def validateApiSchema (sourceData : Val) : List String :=
  checkFields sourceData knownRoot skippedRoot "root"
  ++ (if truthy (getFieldD sourceData "security") then
        checkFields (getFieldD sourceData "security") knownSecurity [] "security"
      else [])
  ++ (if truthy (getFieldD sourceData "privacy") then
        checkFields (getFieldD sourceData "privacy") knownPrivacy [] "privacy"
      else [])
  ++ (if truthy (getFieldD sourceData "parentalControl") then
        checkFields (getFieldD sourceData "parentalControl") knownParentalControl
          skippedParentalControl "parentalControl"
      else [])
  ++ (if truthy (getFieldD sourceData "settings") then
        checkFields (getFieldD sourceData "settings") knownSettings [] "settings"
        ++ (if truthy (getFieldD (getFieldD sourceData "settings") "logs") then
              checkFields (getFieldD (getFieldD sourceData "settings") "logs")
                knownSettingsLogs [] "settings.logs"
            else [])
        ++ (if truthy (getFieldD (getFieldD sourceData "settings") "performance") then
              checkFields (getFieldD (getFieldD sourceData "settings") "performance")
                knownSettingsPerformance [] "settings.performance"
            else [])
      else [])

/-- The keys `checkFields` would flag for one section's data: the keys outside
the known and skipped sets when the data is an object, nothing otherwise. -/
def unknownOf (data : Val) (known skipped : List String) : List String :=
  if isObjectNonNull data then
    (jsKeys data).filter (fun k => !known.contains k && !skipped.contains k)
  else []

/-- The unknown keys of a section that is only checked when truthy. -/
def gatedUnknown (v : Val) (known skipped : List String) : List String :=
  if truthy v then unknownOf v known skipped else []

/-- The seven section paths `validateApiSchema` checks, in traversal order. -/
def sectionPaths : List String :=
  ["root", "security", "privacy", "parentalControl", "settings", "settings.logs",
   "settings.performance"]

/-- The unknown keys `validateApiSchema` flags at one section path of a
profile object (empty when the section is absent, not truthy, or unreached). -/
def unknownKeysAt (obj : Val) (path : String) : List String :=
  if path = "root" then unknownOf obj knownRoot skippedRoot
  else if path = "security" then gatedUnknown (getFieldD obj "security") knownSecurity []
  else if path = "privacy" then gatedUnknown (getFieldD obj "privacy") knownPrivacy []
  else if path = "parentalControl" then
    gatedUnknown (getFieldD obj "parentalControl") knownParentalControl skippedParentalControl
  else if path = "settings" then gatedUnknown (getFieldD obj "settings") knownSettings []
  else if path = "settings.logs" then
    (if truthy (getFieldD obj "settings") then
      gatedUnknown (getFieldD (getFieldD obj "settings") "logs") knownSettingsLogs []
    else [])
  else if path = "settings.performance" then
    (if truthy (getFieldD obj "settings") then
      gatedUnknown (getFieldD (getFieldD obj "settings") "performance")
        knownSettingsPerformance []
    else [])
  else []

/-- The warning list one section contributes: nothing when it has no unknown
keys, one warning naming them all otherwise. -/
def optWarning (unknown : List String) (path : String) : List String :=
  if unknown = [] then [] else [warningFor path unknown]

/-- The section path a `warningFor` string names: the characters between the
fixed 21-character prefix and the next apostrophe. -/
def pathOf (w : String) : String :=
  String.mk ((w.data.drop 21).takeWhile (fun c => c != '\''))

/-- JS nullish coalescing `v ?? d`. -/
def jsNullish (v d : Val) : Val :=
  match v with
  | .vUndef => d
  | .vNull => d
  | x => x

/-- A conditionally present object field (the `if (...) payload.k = v`
assignments of the ported code). -/
def optField (cond : Bool) (k : String) (v : Val) : List (String × Val) :=
  if cond then [(k, v)] else []

/-- The reconstructed security payload: the twelve flags with default true,
and the tld list reduced to ids when truthy. -/
def reconstructSecurity (sec : Val) : Val :=
  .vObj ((securityFields.map (fun k => (k, jsNullish (getFieldD sec k) (.vBool true))))
    ++ optField (truthy (getFieldD sec "tlds")) "tlds"
        (.vArr ((arrElems (getFieldD sec "tlds")).map (fun t => .vObj [("id", getFieldD t "id")]))))

/-- The reconstructed privacy payload: two flags with default true, blocklists
and natives reduced to ids when truthy. -/
def reconstructPrivacy (priv : Val) : Val :=
  .vObj ([("disguisedTrackers", jsNullish (getFieldD priv "disguisedTrackers") (.vBool true)),
          ("allowAffiliate", jsNullish (getFieldD priv "allowAffiliate") (.vBool true))]
    ++ optField (truthy (getFieldD priv "blocklists")) "blocklists"
        (.vArr ((arrElems (getFieldD priv "blocklists")).map (fun b => .vObj [("id", getFieldD b "id")])))
    ++ optField (truthy (getFieldD priv "natives")) "natives"
        (.vArr ((arrElems (getFieldD priv "natives")).map (fun n => .vObj [("id", getFieldD n "id")]))))

/-- The reconstructed parentalControl payload: three flags with default false,
services and categories as id/active pairs when truthy; recreation is never
copied. -/
def reconstructParentalControl (pc : Val) : Val :=
  .vObj ([("safeSearch", jsNullish (getFieldD pc "safeSearch") (.vBool false)),
          ("youtubeRestrictedMode", jsNullish (getFieldD pc "youtubeRestrictedMode") (.vBool false)),
          ("blockBypass", jsNullish (getFieldD pc "blockBypass") (.vBool false))]
    ++ optField (truthy (getFieldD pc "services")) "services"
        (.vArr ((arrElems (getFieldD pc "services")).map (fun s =>
          .vObj [("id", getFieldD s "id"),
                 ("active", jsNullish (getFieldD s "active") (.vBool false))])))
    ++ optField (truthy (getFieldD pc "categories")) "categories"
        (.vArr ((arrElems (getFieldD pc "categories")).map (fun c =>
          .vObj [("id", getFieldD c "id"),
                 ("active", jsNullish (getFieldD c "active") (.vBool false))]))))

/-- A denylist/allowlist payload entry list: id and active (default true). -/
def domainListPayload (l : Val) : Val :=
  .vArr ((arrElems l).map (fun d =>
    .vObj [("id", getFieldD d "id"), ("active", jsNullish (getFieldD d "active") (.vBool true))]))

/-- The reconstructed settings payload: logs, blockPage and performance copied
when truthy, web3 and bav copied when not undefined. -/
def reconstructSettings (srcSet : Val) : Val :=
  .vObj (optField (truthy (getFieldD srcSet "logs")) "logs" (getFieldD srcSet "logs")
    ++ optField (truthy (getFieldD srcSet "blockPage")) "blockPage" (getFieldD srcSet "blockPage")
    ++ optField (truthy (getFieldD srcSet "performance")) "performance" (getFieldD srcSet "performance")
    ++ optField (decide (getFieldD srcSet "web3" ≠ Val.vUndef)) "web3" (getFieldD srcSet "web3")
    ++ optField (decide (getFieldD srcSet "bav" ≠ Val.vUndef)) "bav" (getFieldD srcSet "bav"))

/-- Port of `reconstructPayload` (copy-profile.ts): the creation payload built
from the source profile, with name always suffixed " (Copy)" and each section
reconstructed when the source's section is truthy. -/
def reconstructPayload (sourceData : Val) : Val :=
  let baseName :=
    if truthy (getFieldD sourceData "name") then getFieldD sourceData "name"
    else Val.vStr "Cloned Profile"
  .vObj ([("name", Val.vStr (baseName.jsStr ++ " (Copy)"))]
    ++ optField (truthy (getFieldD sourceData "security")) "security"
        (reconstructSecurity (getFieldD sourceData "security"))
    ++ optField (truthy (getFieldD sourceData "privacy")) "privacy"
        (reconstructPrivacy (getFieldD sourceData "privacy"))
    ++ optField (truthy (getFieldD sourceData "parentalControl")) "parentalControl"
        (reconstructParentalControl (getFieldD sourceData "parentalControl"))
    ++ optField (truthy (getFieldD sourceData "denylist")) "denylist"
        (domainListPayload (getFieldD sourceData "denylist"))
    ++ optField (truthy (getFieldD sourceData "allowlist")) "allowlist"
        (domainListPayload (getFieldD sourceData "allowlist"))
    ++ optField (truthy (getFieldD sourceData "settings")) "settings"
        (reconstructSettings (getFieldD sourceData "settings")))

/-- The remote-call outcomes one `copyProfile` run observes, in call order:
the source fetch, the destination creation (the id on success), the rewrites
fetch, the bulk rewrite PUT, the per-rewrite POST fallback, and the four
verification re-fetches (the verification fetch failures carry no data the
ported code reads, hence `Option`). -/
structure CopyEnv where
  fetchSource : Option Val
  createdId : Option String
  fetchRewrites : Except String (List Val)
  putRewritesOk : Bool
  addRewriteOk : Nat → Bool
  verifySource : Option Val
  verifySourceRewrites : Option (List Val)
  verifyDest : Option Val
  verifyDestRewrites : Option (List Val)

/-- Port of `copyRewrites` (copy-profile.ts): a 404-classified fetch failure
is success ("endpoint not supported"), another fetch failure is failure; no
rewrites is success; a successful PUT is success; otherwise one POST per
rewrite, succeeding when at least one POST succeeded. -/
def copyRewrites (env : CopyEnv) : Bool × String :=
  match env.fetchRewrites with
  | .error e =>
    if strIncludes e "404" then (true, "Rewrites endpoint not found or not supported")
    else (false, "Could not fetch rewrites: " ++ e)
  | .ok rewrites =>
    if rewrites.length = 0 then (true, "No rewrites found to copy")
    else if env.putRewritesOk then
      (true, "Copied " ++ toString rewrites.length ++ " rewrites (PUT method)")
    else
      let count := (List.range rewrites.length).countP env.addRewriteOk
      (decide (0 < count),
        "Copied " ++ toString count ++ "/" ++ toString rewrites.length ++ " rewrites (POST method)")

/-- `new Set((x || []).map(t => t.id))`: the deduplicated ids, in insertion
order. -/
def idSetOf (l : Val) : List Val :=
  dedupFirstVal ((arrElems l).map (fun t => getFieldD t "id"))

/-- Symmetric difference of two id sets, source side first, in set order. -/
def setDiff (s d : List Val) : List Val :=
  (s.filter (fun x => !(d.contains x))) ++ (d.filter (fun x => !(s.contains x)))

/-- `Object.fromEntries((x || []).map(x => [x.id, x.active ?? dflt]))`. -/
def activeMapOf (l : Val) (dflt : Bool) : List (String × Val) :=
  jsFromEntries ((arrElems l).map (fun x =>
    ((getFieldD x "id").jsStr, jsNullish (getFieldD x "active") (.vBool dflt))))

/-- `JSON.stringify` image of a value that is never undefined here. -/
def jsonOf (v : Val) : String := (Val.jsonStringify v).getD "undefined"

/-- The comparison body of `verifyClone` over the two re-fetched profiles and
their rewrites: security flags and tld id-sets, privacy flags and
blocklist/native id-sets, parental-control flags and service/category active
maps, denylist/allowlist entry counts, settings sub-trees by JSON equality,
and rewrite sets by name/content JSON images. -/
def verifyCompare (src : Val) (srcRewrites : List Val) (dst : Val) (dstRewrites : List Val) :
    List String :=
  (if truthy (getFieldD src "security") && truthy (getFieldD dst "security") then
    let sSec := getFieldD src "security"
    let dSec := getFieldD dst "security"
    (securityFields.filterMap (fun k =>
      if getFieldD sSec k ≠ getFieldD dSec k then
        some ("Security '" ++ k ++ "': Source=" ++ (getFieldD sSec k).jsStr ++
          ", Dest=" ++ (getFieldD dSec k).jsStr)
      else none))
    ++ (let tldDiff := setDiff (idSetOf (getFieldD sSec "tlds")) (idSetOf (getFieldD dSec "tlds"))
        if tldDiff ≠ [] then
          ["Security TLDs mismatch. Diff: " ++ joinComma (tldDiff.map Val.jsStr)]
        else [])
  else [])
  ++ (if truthy (getFieldD src "privacy") && truthy (getFieldD dst "privacy") then
    let sPriv := getFieldD src "privacy"
    let dPriv := getFieldD dst "privacy"
    ((["disguisedTrackers", "allowAffiliate"].filterMap (fun k =>
      if getFieldD sPriv k ≠ getFieldD dPriv k then
        some ("Privacy '" ++ k ++ "': Source=" ++ (getFieldD sPriv k).jsStr ++
          ", Dest=" ++ (getFieldD dPriv k).jsStr)
      else none))
    ++ (let blDiff := setDiff (idSetOf (getFieldD sPriv "blocklists"))
          (idSetOf (getFieldD dPriv "blocklists"))
        if blDiff ≠ [] then ["Blocklists mismatch. Diff: " ++ joinComma (blDiff.map Val.jsStr)]
        else [])
    ++ (let natDiff := setDiff (idSetOf (getFieldD sPriv "natives"))
          (idSetOf (getFieldD dPriv "natives"))
        if natDiff ≠ [] then
          ["Native blocklists mismatch. Diff: " ++ joinComma (natDiff.map Val.jsStr)]
        else []))
  else [])
  ++ (if truthy (getFieldD src "parentalControl") && truthy (getFieldD dst "parentalControl") then
    let sPc := getFieldD src "parentalControl"
    let dPc := getFieldD dst "parentalControl"
    ((["safeSearch", "youtubeRestrictedMode", "blockBypass"].filterMap (fun k =>
      if getFieldD sPc k ≠ getFieldD dPc k then
        some ("Parental Control '" ++ k ++ "': Source=" ++ (getFieldD sPc k).jsStr ++
          ", Dest=" ++ (getFieldD dPc k).jsStr)
      else none))
    ++ (if jsonOf (.vObj (activeMapOf (getFieldD sPc "services") false)) ≠
          jsonOf (.vObj (activeMapOf (getFieldD dPc "services") false)) then
          ["Parental Services mismatch"]
        else [])
    ++ (if jsonOf (.vObj (activeMapOf (getFieldD sPc "categories") false)) ≠
          jsonOf (.vObj (activeMapOf (getFieldD dPc "categories") false)) then
          ["Parental Categories mismatch"]
        else []))
  else [])
  ++ (["denylist", "allowlist"].filterMap (fun listTypeName =>
    let sL := activeMapOf (getFieldD src listTypeName) true
    let dL := activeMapOf (getFieldD dst listTypeName) true
    if sL.length ≠ dL.length then
      some (listTypeName ++ " mismatch. Source count=" ++ toString sL.length ++
        ", Dest count=" ++ toString dL.length)
    else none))
  ++ (if truthy (getFieldD src "settings") && truthy (getFieldD dst "settings") then
    knownSettings.filterMap (fun k =>
      if Val.jsonStringify (getFieldD (getFieldD src "settings") k) ≠
          Val.jsonStringify (getFieldD (getFieldD dst "settings") k) then
        some ("Settings '" ++ k ++ "' mismatch")
      else none)
  else if truthy (getFieldD src "settings") || truthy (getFieldD dst "settings") then
    ["Settings mismatch: one profile has settings, the other does not"]
  else [])
  ++ (let cleanRw := fun (rwList : List Val) =>
        dedupFirst (rwList.map (fun r =>
          jsonOf (.vObj [("name", getFieldD r "name"), ("content", getFieldD r "content")])))
      let sRw := cleanRw srcRewrites
      let dRw := cleanRw dstRewrites
      if sRw.length ≠ dRw.length || !(sRw.all (fun x => dRw.contains x)) then
        ["Rewrites mismatch. Source count=" ++ toString sRw.length ++
          ", Dest count=" ++ toString dRw.length]
      else [])

/-- Port of `verifyClone` (copy-profile.ts): a failed source re-fetch yields
the single source advisory, a failed destination re-fetch the single
destination advisory (each rewrites re-fetch failure degrades to an empty
list), otherwise the full field-by-field comparison. -/
def verifyClone (env : CopyEnv) : List String :=
  match env.verifySource with
  | none => ["Verification skipped: could not fetch source profile"]
  | some src =>
    let srcRewrites := env.verifySourceRewrites.getD []
    match env.verifyDest with
    | none => ["Verification skipped: could not fetch destination profile"]
    | some dst =>
      let dstRewrites := env.verifyDestRewrites.getD []
      verifyCompare src srcRewrites dst dstRewrites

/-- Port of `getSkippedFields` (copy-profile.ts). -/
def getSkippedFields (sourceData : Val) : List String :=
  (["id", "fingerprint", "setup"].filterMap (fun field =>
    if truthy (getFieldD sourceData field) then
      some (field ++ ": Auto-generated by NextDNS for new profile")
    else none))
  ++ (if truthy (getFieldD (getFieldD sourceData "parentalControl") "recreation") then
      ["parentalControl.recreation: Not supported by API for write operations"]
    else [])

/-- `CopyResult` (copy-profile.ts). -/
structure CopyResult where
  success : Bool
  newProfileId : Option String
  verificationMismatches : List String
  skippedFields : List String
  schemaWarnings : List String
deriving DecidableEq

/-- Port of `copyProfile` (copy-profile.ts): fetch failure is terminal;
schema warnings without force are terminal; creation failure is terminal;
after creation the rewrite copy and verification run and the run reports
success with their outcomes attached. -/
def copyProfile (env : CopyEnv) (force : Bool) : CopyResult :=
  match env.fetchSource with
  | none => ⟨false, none, [], [], []⟩
  | some sourceData =>
    let schemaWarnings := validateApiSchema sourceData
    if schemaWarnings ≠ [] ∧ force = false then ⟨false, none, [], [], schemaWarnings⟩
    else
      let _payload := reconstructPayload sourceData
      match env.createdId with
      | none => ⟨false, none, [], [], schemaWarnings⟩
      | some newProfileId =>
        let _rewriteResult := copyRewrites env
        let mismatches := verifyClone env
        ⟨true, some newProfileId, mismatches, getSkippedFields sourceData, schemaWarnings⟩

/-! ## manage-domain.ts and the orchestration environments -/

/-- `Profile` (types.ts). -/
structure Profile where
  id : String
  name : String
  fingerprint : Option String
deriving DecidableEq

/-- The not-found classification both `updateDomainStatus` and
`removeDomainFromList` perform on a thrown error message. -/
def isNotFoundError (error : String) : Bool :=
  strIncludes error "404" || strIncludes (jsToLower error) "not found"

/-- The remote side one `manageDomain` run sees: the live profile list and
each profile's call outcome for the requested action's API call. -/
structure ManageEnv where
  profiles : List Profile
  call : String → Except String Unit

/-- The `{success, error?}` pair the per-profile helpers return. -/
structure CallOutcome where
  success : Bool
  error : Option String
deriving DecidableEq

/-- Port of `addDomainToList` (manage-domain.ts): any failure verbatim. -/
def addDomainToList (env : ManageEnv) (profileId : String) : CallOutcome :=
  match env.call profileId with
  | .ok _ => ⟨true, none⟩
  | .error err => ⟨false, some err⟩

/-- Port of `updateDomainStatus` (manage-domain.ts): a not-found response is a
failure reported as "not found". -/
def updateDomainStatus (env : ManageEnv) (profileId : String) (active : Bool) : CallOutcome :=
  let _ := active
  match env.call profileId with
  | .ok _ => ⟨true, none⟩
  | .error err =>
    if isNotFoundError err then ⟨false, some "not found"⟩ else ⟨false, some err⟩

/-- Port of `removeDomainFromList` (manage-domain.ts): a not-found response is
a success with the advisory "not found (already removed)". -/
def removeDomainFromList (env : ManageEnv) (profileId : String) : CallOutcome :=
  match env.call profileId with
  | .ok _ => ⟨true, none⟩
  | .error err =>
    if isNotFoundError err then ⟨true, some "not found (already removed)"⟩
    else ⟨false, some err⟩

/-- The string union `'add' | 'remove' | 'enable' | 'disable'`. -/
inductive DomainAction where
  | add
  | remove
  | enable
  | disable
deriving DecidableEq

/-- `OperationResult` (types.ts). -/
structure OperationResult where
  profileId : String
  profileName : String
  success : Bool
  error : Option String
deriving DecidableEq

/-- One iteration of the `manageDomain` profile loop. -/
def applyDomainAction (env : ManageEnv) (action : DomainAction) (p : Profile) : OperationResult :=
  let r :=
    match action with
    | .add => addDomainToList env p.id
    | .remove => removeDomainFromList env p.id
    | .enable => updateDomainStatus env p.id true
    | .disable => updateDomainStatus env p.id false
  ⟨p.id, p.name, r.success, r.error⟩

/-- The `{results, successCount, failCount}` summary of `manageDomain`. -/
structure ManageSummary where
  results : List OperationResult
  successCount : Nat
  failCount : Nat
deriving DecidableEq

/-- Target-profile resolution shared by manageDomain, analyzeSync and
diffProfiles: when explicit ids are given (non-empty) the live profiles are
filtered to them, otherwise all live profiles are used. -/
def resolveProfiles (profiles : List Profile) (profileIds : Option (List String)) :
    List Profile :=
  match profileIds with
  | some ids => if ids.isEmpty then profiles else profiles.filter (fun p => ids.contains p.id)
  | none => profiles

/-- Were explicit (non-empty) profile ids given? -/
def profileIdsGiven : Option (List String) → Bool
  | some ids => !ids.isEmpty
  | none => false

/-- Port of `manageDomain` (manage-domain.ts): resolve the target profiles
(explicit empty match and no-profiles are terminal errors), then apply the
action to every profile in order, collecting one result per profile and the
success/failure tallies. -/
def manageDomain (env : ManageEnv) (action : DomainAction) (profileIds : Option (List String)) :
    Except String ManageSummary :=
  let profiles := resolveProfiles env.profiles profileIds
  if profileIdsGiven profileIds && profiles.isEmpty then
    .error ("None of the specified profiles found: " ++ joinComma (profileIds.getD []))
  else if profiles.isEmpty then .error "No profiles found"
  else
    let results := profiles.map (applyDomainAction env action)
    .ok ⟨results, results.countP (fun r => r.success), results.countP (fun r => !r.success)⟩

/-- The remote side one sync analysis sees: the live profile list and, per
profile id, the outcome of `getProfileListData` (the `api.getProfile` call and
its denylist/allowlist conversion); `none` is the caught fetch error the
ported function logs and turns into null. -/
structure SyncEnv where
  profiles : List Profile
  getProfileListData : String → Option ProfileListData

/-- One list type's slice of `SyncAnalysis`. -/
structure SyncListAnalysis where
  canonical : List (String × Bool)
  toAdd : List SyncOperation
  toUpdate : List SyncOperation
deriving DecidableEq

/-- `SyncAnalysis` (sync-lists.ts). The estimated minutes are exact rationals
here where JS computes in IEEE doubles; no ported comparison reads the field. -/
structure SyncAnalysis where
  denylist : SyncListAnalysis
  allowlist : SyncListAnalysis
  totalUniqueInDenylist : Nat
  totalUniqueInAllowlist : Nat
  estimatedTimeMinutes : Rat
deriving DecidableEq

/-- Port of `analyzeSync` (sync-lists.ts): resolve the profiles (explicit
empty match, then fewer than two, are terminal errors), fetch each profile's
list data in order skipping the profiles whose fetch returned null, and build
the canonical maps and operation lists from the fetched data. -/
def analyzeSync (env : SyncEnv) (profileIds : Option (List String)) :
    Except String ((List (String × ProfileListData)) × SyncAnalysis) :=
  let profiles := resolveProfiles env.profiles profileIds
  if profileIdsGiven profileIds && profiles.isEmpty then
    .error ("None of the specified profiles found: " ++ joinComma (profileIds.getD []))
  else if profiles.length < 2 then .error "Need at least 2 profiles to sync"
  else
    let allData := profiles.foldl (fun acc p =>
      match env.getProfileListData p.id with
      | some d => acc ++ [(p.id, d)]
      | none => acc) []
    let denylistCanonical := getCanonicalDomains allData .denylist
    let allowlistCanonical := getCanonicalDomains allData .allowlist
    let denylistOps := calculateSyncOperations allData denylistCanonical .denylist
    let allowlistOps := calculateSyncOperations allData allowlistCanonical .allowlist
    let totalOps := denylistOps.toAdd.length + denylistOps.toUpdate.length +
      allowlistOps.toAdd.length + allowlistOps.toUpdate.length
    .ok (allData,
      ⟨⟨denylistCanonical, denylistOps.toAdd, denylistOps.toUpdate⟩,
       ⟨allowlistCanonical, allowlistOps.toAdd, allowlistOps.toUpdate⟩,
       denylistCanonical.length, allowlistCanonical.length,
       ((totalOps : Rat) * 500) / 60000⟩)

/-- The remote side one diff sees: the live profile list and, per profile id,
the outcome of the raw `api.getProfile` call (uncaught in the ported code). -/
structure DiffEnv where
  profiles : List Profile
  getProfile : String → Except String Val

/-- `data.security || {}`. -/
def jsOrEmptyObj (v : Val) : Val := if truthy v then v else .vObj []

/-- The per-profile snapshot `fetchProfileData` builds from a raw profile:
flat domain maps (`Object.fromEntries` over id/active pairs, active read as a
boolean) and the raw sections defaulted to empty objects. -/
def profileDiffDataOfVal (name : String) (data : Val) : ProfileDiffData where
  name := name
  denylist := jsFromEntries ((arrElems (getFieldD data "denylist")).map (fun d =>
    ((getFieldD d "id").jsStr, truthy (getFieldD d "active"))))
  allowlist := jsFromEntries ((arrElems (getFieldD data "allowlist")).map (fun d =>
    ((getFieldD d "id").jsStr, truthy (getFieldD d "active"))))
  security := jsOrEmptyObj (getFieldD data "security")
  privacy := jsOrEmptyObj (getFieldD data "privacy")
  parentalControl := jsOrEmptyObj (getFieldD data "parentalControl")
  settings := jsOrEmptyObj (getFieldD data "settings")

/-- Port of `fetchProfileData` (diff-profiles.ts): fetch every profile in
order; the first fetch failure propagates and aborts the whole loop. -/
def fetchProfileData (env : DiffEnv) : List Profile → Except String (List (String × ProfileDiffData))
  | [] => .ok []
  | p :: rest =>
    match env.getProfile p.id with
    | .error e => .error e
    | .ok data =>
      match fetchProfileData env rest with
      | .error e => .error e
      | .ok l => .ok ((p.id, profileDiffDataOfVal p.name data) :: l)

/-- `DiffResult` (diff-profiles.ts). -/
structure DiffResult where
  profileIds : List String
  profileNames : List (String × String)
  tables : List DiffTable
deriving DecidableEq

/-- Port of `diffProfiles` (diff-profiles.ts): resolve the profiles (explicit
empty match, then fewer than two, are terminal errors), fetch every profile's
data (any fetch failure aborts), and generate the requested tables. -/
def diffProfiles (env : DiffEnv) (profileIds : Option (List String)) (sct : DiffSection)
    (diffOnly : Bool) : Except String DiffResult :=
  let profiles := resolveProfiles env.profiles profileIds
  if profileIdsGiven profileIds && profiles.isEmpty then
    .error ("None of the specified profiles found: " ++ joinComma (profileIds.getD []))
  else if profiles.length < 2 then .error "Need at least 2 profiles to compare"
  else
    match fetchProfileData env profiles with
    | .error e => .error e
    | .ok allData =>
      .ok ⟨allData.map Prod.fst, allData.map (fun pd => (pd.1, pd.2.name)),
        generateDiffTables allData sct diffOnly⟩

/-! ## Concrete data for witnesses and counterexamples -/

/-- Two profiles in a one-enabled/one-disabled tie over `tie.com`. -/
def c1Data : List (String × ProfileListData) :=
  [("p1", ⟨"Profile 1", [("tie.com", true)], []⟩),
   ("p2", ⟨"Profile 2", [("tie.com", false)], []⟩)]

/-- A profile listing `b.com` before `a.com`, and an empty profile. -/
def c6Data : List (String × ProfileListData) :=
  [("p1", ⟨"Profile 1", [("b.com", true), ("a.com", true)], []⟩),
   ("p2", ⟨"Profile 2", [], []⟩)]

/-- A diff snapshot whose `settings.web3` value is the given array. -/
def c4Profile (arr : List Val) : ProfileDiffData :=
  ⟨"P", [], [], .vObj [], .vObj [], .vObj [], .vObj [("web3", .vArr arr)]⟩

/-- Two profiles holding the mixed-type array `[1, "1"]` in the same order. -/
def c4DataEq : List (String × ProfileDiffData) :=
  [("p1", c4Profile [.vNum 1, .vStr "1"]), ("p2", c4Profile [.vNum 1, .vStr "1"])]

/-- The same two profiles with the second one's array permuted. -/
def c4DataPerm : List (String × ProfileDiffData) :=
  [("p1", c4Profile [.vNum 1, .vStr "1"]), ("p2", c4Profile [.vStr "1", .vNum 1])]

/-- A sync environment with two live profiles where the second profile's list
fetch fails (the remote call throws and `getProfileListData` returns null). -/
def c5Env : SyncEnv where
  profiles := [⟨"p1", "Profile 1", none⟩, ⟨"p2", "Profile 2", none⟩]
  getProfileListData := fun pid =>
    if pid = "p1" then some ⟨"Profile 1", [("a.com", true)], []⟩ else none

/-- A conformant source profile. -/
def c10Src : Val := .vObj [("name", .vStr "Source")]

/-- A copy environment where fetch, creation and the rewrite copy succeed but
the verification re-fetch of the destination profile fails. -/
def c10Env : CopyEnv where
  fetchSource := some c10Src
  createdId := some "newid"
  fetchRewrites := .ok []
  putRewritesOk := true
  addRewriteOk := fun _ => true
  verifySource := some c10Src
  verifySourceRewrites := some []
  verifyDest := none
  verifyDestRewrites := none

/-! ## Association-list and tally lemmas -/

theorem lookupKey_eq_none_iff {α : Type} (d : String) (l : List (String × α)) :
    lookupKey d l = none ↔ d ∉ l.map Prod.fst := by
  induction l with
  | nil => simp [lookupKey]
  | cons e rest ih =>
    simp only [lookupKey, List.map_cons, List.mem_cons]
    by_cases h : e.1 = d
    · simp [h]
    · have h' : ¬d = e.1 := fun hd => h hd.symm
      simp [h, h', ih]

theorem lookupKey_isSome_iff {α : Type} (d : String) (l : List (String × α)) :
    (lookupKey d l).isSome = true ↔ d ∈ l.map Prod.fst := by
  rcases hl : lookupKey d l with _ | a
  · simpa [hl] using (lookupKey_eq_none_iff d l).mp hl
  · have : ¬lookupKey d l = none := by simp [hl]
    simp only [lookupKey_eq_none_iff, not_not] at this
    simpa using this

theorem lookupKey_bumpTally_self (ds : List (String × (Nat × Nat))) (d : String) (a : Bool) :
    lookupKey d (bumpTally ds d a) = some (bumpPair ((lookupKey d ds).getD (0, 0)) a) := by
  induction ds with
  | nil => simp [bumpTally, lookupKey]
  | cons e rest ih =>
    by_cases h : e.1 = d <;> simp [bumpTally, lookupKey, h, ih]

theorem lookupKey_bumpTally_other (ds : List (String × (Nat × Nat))) (d d' : String) (a : Bool)
    (h : d ≠ d') :
    lookupKey d (bumpTally ds d' a) = lookupKey d ds := by
  have h' : ¬d' = d := fun he => h he.symm
  induction ds with
  | nil => simp [bumpTally, lookupKey, h']
  | cons e rest ih =>
    by_cases h1 : e.1 = d'
    · have h2 : ¬e.1 = d := by rw [h1]; exact h'
      simp [bumpTally, lookupKey, h1, h2, h']
    · by_cases h2 : e.1 = d <;> simp [bumpTally, lookupKey, h1, h2, ih, h]

theorem lookupKey_entriesFold (entries : List (String × Bool)) (ds : List (String × (Nat × Nat)))
    (d : String) (h : (entries.map Prod.fst).Nodup) :
    lookupKey d (entries.foldl (fun ds e => bumpTally ds e.1 e.2) ds) =
      match lookupKey d entries with
      | none => lookupKey d ds
      | some a => some (bumpPair ((lookupKey d ds).getD (0, 0)) a) := by
  induction entries generalizing ds with
  | nil => simp [lookupKey]
  | cons e rest ih =>
    simp only [List.map_cons, List.nodup_cons] at h
    simp only [List.foldl_cons]
    by_cases he : e.1 = d
    · subst he
      have hrest : lookupKey e.1 rest = none := by
        rw [lookupKey_eq_none_iff]
        exact h.1
      rw [ih _ h.2, hrest]
      simp [lookupKey, lookupKey_bumpTally_self]
    · rw [ih _ h.2]
      have hne : d ≠ e.1 := fun hd => he hd.symm
      rcases hr : lookupKey d rest with _ | a <;>
        simp [lookupKey, he, hr, lookupKey_bumpTally_other _ _ _ _ hne]

theorem countP_le_of_imp {α : Type} (p q : α → Bool) (l : List α)
    (h : ∀ a ∈ l, p a = true → q a = true) : l.countP p ≤ l.countP q := by
  induction l with
  | nil => simp
  | cons x xs ih =>
    have hx := h x (List.mem_cons_self x xs)
    have hxs := ih (fun a ha => h a (List.mem_cons_of_mem x ha))
    simp only [List.countP_cons]
    by_cases hp : p x = true
    · rw [if_pos hp, if_pos (hx hp)]
      omega
    · rw [if_neg hp]
      by_cases hq : q x = true
      · rw [if_pos hq]
        omega
      · rw [if_neg hq]
        omega

theorem lookupKey_tallyFold (profiles : List (String × ProfileListData)) (listType : ListType)
    (d : String) (ds : List (String × (Nat × Nat)))
    (h : ∀ pd ∈ profiles, ((pd.2.listOf listType).map Prod.fst).Nodup) :
    lookupKey d (profiles.foldl
        (fun ds pd => (pd.2.listOf listType).foldl (fun ds e => bumpTally ds e.1 e.2) ds) ds) =
      if profilesContaining profiles listType d = 0 then lookupKey d ds
      else some (((lookupKey d ds).getD (0, 0)).1 + enabledCount profiles listType d,
                 ((lookupKey d ds).getD (0, 0)).2 + disabledCount profiles listType d) := by
  induction profiles generalizing ds with
  | nil => simp [profilesContaining]
  | cons pd rest ih =>
    simp only [List.foldl_cons]
    have hpd := h pd (List.mem_cons_self pd rest)
    have htail : ∀ q ∈ rest, ((q.2.listOf listType).map Prod.fst).Nodup :=
      fun q hq => h q (List.mem_cons_of_mem pd hq)
    have hstep := lookupKey_entriesFold (pd.2.listOf listType) ds d hpd
    rw [ih _ htail]
    rcases hl : lookupKey d (pd.2.listOf listType) with _ | a <;> rw [hl] at hstep
    · have hpc : profilesContaining (pd :: rest) listType d =
          profilesContaining rest listType d := by
        simp [profilesContaining, List.countP_cons, hl]
      have hec : enabledCount (pd :: rest) listType d = enabledCount rest listType d := by
        simp [enabledCount, List.countP_cons, hl]
      have hdc : disabledCount (pd :: rest) listType d = disabledCount rest listType d := by
        simp [disabledCount, List.countP_cons, hl]
      rw [hpc, hec, hdc, hstep]
    · have hpc : profilesContaining (pd :: rest) listType d =
          profilesContaining rest listType d + 1 := by
        simp [profilesContaining, List.countP_cons, hl]
      have hec : enabledCount (pd :: rest) listType d =
          enabledCount rest listType d + (if a = true then 1 else 0) := by
        cases a <;> simp [enabledCount, List.countP_cons, hl]
      have hdc : disabledCount (pd :: rest) listType d =
          disabledCount rest listType d + (if a = false then 1 else 0) := by
        cases a <;> simp [disabledCount, List.countP_cons, hl]
      have henle : enabledCount rest listType d ≤ profilesContaining rest listType d := by
        apply countP_le_of_imp
        intro q _ hq
        rcases hq' : lookupKey d (q.listOf listType) with _ | b <;> simp [hq'] at hq ⊢
      have hdisle : disabledCount rest listType d ≤ profilesContaining rest listType d := by
        apply countP_le_of_imp
        intro q _ hq
        rcases hq' : lookupKey d (q.listOf listType) with _ | b <;> simp [hq'] at hq ⊢
      rw [hpc, hec, hdc, hstep]
      by_cases hc : profilesContaining rest listType d = 0
      · have he0 : enabledCount rest listType d = 0 := Nat.le_zero.mp (hc ▸ henle)
        have hd0 : disabledCount rest listType d = 0 := Nat.le_zero.mp (hc ▸ hdisle)
        rw [if_pos hc, if_neg (by omega), he0, hd0]
        cases a <;> simp [bumpPair, Prod.ext_iff]
      · rw [if_neg hc, if_neg (by omega)]
        cases a <;> simp [bumpPair, Prod.ext_iff] <;> omega

theorem lookupKey_canonicalMap (l : List (String × (Nat × Nat))) (d : String) :
    lookupKey d (l.map (fun e => (e.1, decide (e.2.2 ≤ e.2.1)))) =
      (lookupKey d l).map (fun c => decide (c.2 ≤ c.1)) := by
  induction l with
  | nil => simp [lookupKey]
  | cons e rest ih =>
    by_cases h : e.1 = d <;> simp [lookupKey, h, ih]

/-- C1: over any profile-snapshot map whose per-profile lists hold each domain
at most once (the JS `Record` invariant) and any list type, `getCanonicalDomains`
maps a domain to a value exactly when at least one profile holds it, and that
value is `enabledCount >= disabledCount` tallied over the profiles holding it
(so a one-enabled/one-disabled tie yields true, and a domain no profile holds
is absent). -/
theorem getCanonicalDomains_spec (allData : List (String × ProfileListData))
    (listType : ListType) (d : String)
    (h : ∀ pd ∈ allData, ((pd.2.listOf listType).map Prod.fst).Nodup) :
    lookupKey d (getCanonicalDomains allData listType) =
      if 0 < profilesContaining allData listType d then
        some (decide (disabledCount allData listType d ≤ enabledCount allData listType d))
      else none := by
  unfold getCanonicalDomains tallyDomains
  rw [lookupKey_canonicalMap, lookupKey_tallyFold allData listType d [] h]
  by_cases hc : profilesContaining allData listType d = 0
  · simp [hc, lookupKey]
  · simp [hc, Nat.pos_of_ne_zero hc, lookupKey]

/-- C1 witness: on the concrete one-enabled/one-disabled tie the hypothesis
holds and the canonical value for `tie.com` is enabled. -/
theorem getCanonicalDomains_spec_witness :
    (∀ pd ∈ c1Data, ((pd.2.listOf ListType.denylist).map Prod.fst).Nodup) ∧
    lookupKey "tie.com" (getCanonicalDomains c1Data ListType.denylist) = some true :=
  ⟨by decide,
    (getCanonicalDomains_spec c1Data ListType.denylist "tie.com" (by decide)).trans (by decide)⟩

/-! ## C2 and C6: sync operation planning -/

theorem calcStep_fold (allData : List (String × ProfileListData)) (listType : ListType)
    (c : String × Bool) (acc : SyncOps) :
    allData.foldl (calcStep listType c) acc =
      ⟨acc.toAdd ++ specAddOps allData listType c,
       acc.toUpdate ++ specUpdateOps allData listType c⟩ := by
  induction allData generalizing acc with
  | nil => simp [specAddOps, specUpdateOps]
  | cons pd rest ih =>
    simp only [List.foldl_cons, specAddOps, specUpdateOps, List.filterMap_cons]
    rcases hl : lookupKey c.1 (pd.2.listOf listType) with _ | cur
    · simp [calcStep, hl, ih, specAddOps, specUpdateOps]
    · by_cases hcur : cur = c.2
      · simp [calcStep, hl, hcur, ih, specAddOps, specUpdateOps]
      · simp [calcStep, hl, hcur, ih, specAddOps, specUpdateOps]

theorem calculateSyncOperations_fold (allData : List (String × ProfileListData))
    (canonical : List (String × Bool)) (listType : ListType) (acc : SyncOps) :
    canonical.foldl (fun acc c => allData.foldl (calcStep listType c) acc) acc =
      ⟨acc.toAdd ++ canonical.flatMap (specAddOps allData listType),
       acc.toUpdate ++ canonical.flatMap (specUpdateOps allData listType)⟩ := by
  induction canonical generalizing acc with
  | nil => simp
  | cons c rest ih =>
    simp only [List.foldl_cons, List.flatMap_cons]
    rw [calcStep_fold, ih]
    simp [List.append_assoc]

/-- C2: for every profile-snapshot map, canonical map and list type, the
planned adds are exactly one add per (canonical domain, profile lacking it)
pair with target the canonical value, the planned updates exactly one update
per (canonical domain, profile holding it with a different flag) pair, both in
canonical-then-profile order, and a profile already matching contributes no
operation; in particular when every profile matches every canonical entry both
lists are empty (idempotence). -/
theorem calculateSyncOperations_spec (allData : List (String × ProfileListData))
    (canonical : List (String × Bool)) (listType : ListType) :
    ((calculateSyncOperations allData canonical listType).toAdd =
      canonical.flatMap (specAddOps allData listType)) ∧
    ((calculateSyncOperations allData canonical listType).toUpdate =
      canonical.flatMap (specUpdateOps allData listType)) ∧
    ((∀ c ∈ canonical, ∀ pd ∈ allData, lookupKey c.1 (pd.2.listOf listType) = some c.2) →
      (calculateSyncOperations allData canonical listType).toAdd = [] ∧
      (calculateSyncOperations allData canonical listType).toUpdate = []) := by
  have hfold := calculateSyncOperations_fold allData canonical listType ⟨[], []⟩
  unfold calculateSyncOperations
  rw [hfold]
  refine ⟨by simp, by simp, fun hmatch => ⟨?_, ?_⟩⟩ <;>
  · simp only [List.nil_append, List.flatMap_eq_nil_iff]
    intro c hc
    simp only [specAddOps, specUpdateOps, List.filterMap_eq_nil_iff]
    intro pd hpd
    simp [hmatch c hc pd hpd]

/-- C2 witness: the characterization instantiated at the concrete tie data. -/
theorem calculateSyncOperations_spec_witness :
    ((calculateSyncOperations c1Data (getCanonicalDomains c1Data ListType.denylist)
        ListType.denylist).toAdd =
      (getCanonicalDomains c1Data ListType.denylist).flatMap
        (specAddOps c1Data ListType.denylist)) ∧
    ((calculateSyncOperations c1Data (getCanonicalDomains c1Data ListType.denylist)
        ListType.denylist).toUpdate =
      (getCanonicalDomains c1Data ListType.denylist).flatMap
        (specUpdateOps c1Data ListType.denylist)) ∧
    ((∀ c ∈ getCanonicalDomains c1Data ListType.denylist, ∀ pd ∈ c1Data,
        lookupKey c.1 (pd.2.listOf ListType.denylist) = some c.2) →
      (calculateSyncOperations c1Data (getCanonicalDomains c1Data ListType.denylist)
        ListType.denylist).toAdd = [] ∧
      (calculateSyncOperations c1Data (getCanonicalDomains c1Data ListType.denylist)
        ListType.denylist).toUpdate = []) :=
  calculateSyncOperations_spec c1Data (getCanonicalDomains c1Data ListType.denylist)
    ListType.denylist

theorem keys_bumpTally (ds : List (String × (Nat × Nat))) (d : String) (a : Bool) :
    (bumpTally ds d a).map Prod.fst = insertNewStr (ds.map Prod.fst) d := by
  induction ds with
  | nil => simp [bumpTally, insertNewStr]
  | cons e rest ih =>
    by_cases h : e.1 = d
    · simp [bumpTally, insertNewStr, h]
    · have h' : ¬d = e.1 := fun hd => h hd.symm
      by_cases hm : d ∈ rest.map Prod.fst <;>
        simp [bumpTally, insertNewStr, h, h', hm, ih]

theorem keys_entriesFold (entries : List (String × Bool)) (ds : List (String × (Nat × Nat))) :
    ((entries.foldl (fun ds e => bumpTally ds e.1 e.2) ds).map Prod.fst) =
      (entries.map Prod.fst).foldl insertNewStr (ds.map Prod.fst) := by
  induction entries generalizing ds with
  | nil => simp
  | cons e rest ih => simp [ih, keys_bumpTally]

theorem keys_tallyDomains (allData : List (String × ProfileListData)) (listType : ListType) :
    (tallyDomains allData listType).map Prod.fst =
      dedupFirst (allData.flatMap (fun pd => (pd.2.listOf listType).map Prod.fst)) := by
  unfold tallyDomains dedupFirst
  have main : ∀ (l : List (String × ProfileListData)) (ds : List (String × (Nat × Nat))),
      ((l.foldl (fun ds pd => (pd.2.listOf listType).foldl
          (fun ds e => bumpTally ds e.1 e.2) ds) ds).map Prod.fst) =
        (l.flatMap (fun pd => (pd.2.listOf listType).map Prod.fst)).foldl
          insertNewStr (ds.map Prod.fst) := by
    intro l
    induction l with
    | nil => simp
    | cons pd rest ih =>
      intro ds
      simp only [List.foldl_cons, List.flatMap_cons, List.foldl_append]
      rw [ih, keys_entriesFold]
  simpa using main allData []

/-- C6 counterexample: with a profile listing `b.com` before `a.com` and an
empty second profile, the planned adds iterate the domains as `b.com` then
`a.com`, which is not sorted lexicographic order (JS string sort would place
`a.com` first, as `sortStrings` shows). -/
theorem syncOps_sorted_counterexample :
    ((calculateSyncOperations c6Data (getCanonicalDomains c6Data ListType.denylist)
        ListType.denylist).toAdd.map (fun op => op.domain) = ["b.com", "a.com"]) ∧
    sortStrings ["b.com", "a.com"] = ["a.com", "b.com"] ∧
    (["b.com", "a.com"] : List String) ≠ ["a.com", "b.com"] := by
  refine ⟨by decide, by decide, by decide⟩

/-- C6 amended: the operation order is deterministic but not sorted: the outer
iteration follows the canonical map's insertion order, which is the order of
each domain's first appearance across the profiles (profile insertion order,
then per-profile key order), and the inner iteration follows profile insertion
order. -/
theorem syncOps_order_spec (allData : List (String × ProfileListData))
    (canonical : List (String × Bool)) (listType : ListType) :
    ((calculateSyncOperations allData canonical listType).toAdd =
      canonical.flatMap (specAddOps allData listType)) ∧
    ((calculateSyncOperations allData canonical listType).toUpdate =
      canonical.flatMap (specUpdateOps allData listType)) ∧
    ((getCanonicalDomains allData listType).map Prod.fst =
      dedupFirst (allData.flatMap (fun pd => (pd.2.listOf listType).map Prod.fst))) := by
  have hfold := calculateSyncOperations_fold allData canonical listType ⟨[], []⟩
  unfold calculateSyncOperations
  rw [hfold]
  refine ⟨by simp, by simp, ?_⟩
  have : (getCanonicalDomains allData listType).map Prod.fst =
      (tallyDomains allData listType).map Prod.fst := by
    unfold getCanonicalDomains
    rw [List.map_map]
    rfl
  rw [this, keys_tallyDomains]

/-! ## C5: fetch failures in sync analysis and diff -/

theorem fetchProfileData_ok_forall (env : DiffEnv) (l : List Profile)
    (data : List (String × ProfileDiffData)) (h : fetchProfileData env l = .ok data) :
    ∀ p ∈ l, (env.getProfile p.id).isOk = true := by
  induction l generalizing data with
  | nil => simp
  | cons p rest ih =>
    intro q hq
    simp only [fetchProfileData] at h
    rcases hp : env.getProfile p.id with e | v <;> rw [hp] at h
    · exact absurd h (by simp)
    · rcases hr : fetchProfileData env rest with e' | l' <;> rw [hr] at h
      · exact absurd h (by simp)
      · rcases List.mem_cons.mp hq with hq | hq
        · rw [hq, hp]
          rfl
        · exact ih l' hr q hq

theorem syncFold_eq_filterMap (env : SyncEnv) (l : List Profile)
    (acc : List (String × ProfileListData)) :
    l.foldl (fun acc p =>
        match env.getProfileListData p.id with
        | some d => acc ++ [(p.id, d)]
        | none => acc) acc =
      acc ++ l.filterMap (fun p => (env.getProfileListData p.id).map (fun d => (p.id, d))) := by
  induction l generalizing acc with
  | nil => simp
  | cons p rest ih =>
    simp only [List.foldl_cons, List.filterMap_cons]
    rcases hp : env.getProfileListData p.id with _ | d <;> simp [hp, ih]

/-- C5 counterexample: in `analyzeSync` an individual profile fetch failure
does not abort the operation: with two live profiles of which the second one's
fetch fails, the analysis succeeds and is computed from the partial set
holding only the first profile. -/
theorem analyzeSync_partial_counterexample :
    (c5Env.getProfileListData "p2" = none) ∧
    ((resolveProfiles c5Env.profiles none).map (fun p => p.id) = ["p1", "p2"]) ∧
    ((analyzeSync c5Env none).toOption.map (fun r => r.1.map Prod.fst) = some ["p1"]) := by
  refine ⟨by decide, by decide, by decide⟩

/-- C5 amended: a fetch failure aborts the whole diff (a successful
`diffProfiles` run implies every resolved profile's fetch succeeded, so no
diff is ever produced from a partial set), while `analyzeSync` catches each
profile's fetch failure and continues: its snapshot map is exactly the
successfully fetched subset of the resolved profiles, in order. -/
theorem fetch_failure_handling_spec :
    (∀ (env : DiffEnv) (profileIds : Option (List String)) (sct : DiffSection)
        (diffOnly : Bool) (r : DiffResult),
      diffProfiles env profileIds sct diffOnly = .ok r →
      ∀ p ∈ resolveProfiles env.profiles profileIds, (env.getProfile p.id).isOk = true) ∧
    (∀ (env : SyncEnv) (profileIds : Option (List String))
        (allData : List (String × ProfileListData)) (analysis : SyncAnalysis),
      analyzeSync env profileIds = .ok (allData, analysis) →
      allData = (resolveProfiles env.profiles profileIds).filterMap
        (fun p => (env.getProfileListData p.id).map (fun d => (p.id, d)))) := by
  constructor
  · intro env profileIds sct diffOnly r h p hp
    simp only [diffProfiles] at h
    split_ifs at h
    rcases hf : fetchProfileData env (resolveProfiles env.profiles profileIds) with e | data <;>
      rw [hf] at h
    · exact absurd h (by simp)
    · exact fetchProfileData_ok_forall env _ data hf p hp
  · intro env profileIds allData analysis h
    simp only [analyzeSync] at h
    split_ifs at h
    simp only [Except.ok.injEq, Prod.mk.injEq] at h
    rw [← h.1, syncFold_eq_filterMap]
    simp

/-! ## C3 and C10: the clone pipeline's result -/

/-- C3: a `copyProfile` run reports success exactly when the source fetch
succeeded, the schema gate passed (no warnings, or force set) and the
destination creation succeeded; verification mismatches never flip success:
once the destination exists the run reports success with `verifyClone`'s
mismatch list attached, whatever the rewrite-copy and verification outcomes. -/
theorem copyProfile_success_spec (env : CopyEnv) (force : Bool) :
    ((copyProfile env force).success = true ↔
      ∃ d, env.fetchSource = some d ∧ (validateApiSchema d = [] ∨ force = true) ∧
        env.createdId.isSome = true) ∧
    ((copyProfile env force).success = true →
      (copyProfile env force).verificationMismatches = verifyClone env ∧
      (copyProfile env force).newProfileId = env.createdId) := by
  rcases hf : env.fetchSource with _ | d
  · constructor
    · simp [copyProfile, hf]
    · simp [copyProfile, hf]
  · rcases hc : env.createdId with _ | i
    · constructor
      · by_cases hw : validateApiSchema d ≠ [] ∧ force = false <;>
          simp [copyProfile, hf, hc, hw]
      · by_cases hw : validateApiSchema d ≠ [] ∧ force = false <;>
          simp [copyProfile, hf, hc, hw]
    · by_cases hw : validateApiSchema d ≠ [] ∧ force = false
      · constructor
        · simp only [copyProfile, hf, if_pos hw, hc]
          constructor
          · intro hfalse
            exact absurd hfalse (by simp)
          · rintro ⟨d', hd', hcond, -⟩
            obtain rfl : d = d' := Option.some.inj hd'
            rcases hcond with hcond | hcond
            · exact absurd hcond hw.1
            · rw [hw.2] at hcond
              exact absurd hcond (by simp)
        · simp [copyProfile, hf, if_pos hw, hc]
      · constructor
        · simp only [copyProfile, hf, if_neg hw, hc]
          constructor
          · intro _
            refine ⟨d, rfl, ?_, by simp⟩
            rcases not_and_or.mp hw with h | h
            · exact Or.inl (not_not.mp h)
            · exact Or.inr (by simpa using h)
          · intro _
            trivial
        · simp [copyProfile, hf, if_neg hw, hc]

/-- C10: when the fetch, schema gate and creation all pass but a verification
re-fetch fails, the run still reports success and the mismatch list is exactly
the single advisory naming the profile whose re-fetch failed, with no
field-by-field comparison performed. -/
theorem copyProfile_verifySkip_spec (env : CopyEnv) (force : Bool) (d : Val) (i : String)
    (hfetch : env.fetchSource = some d)
    (hschema : validateApiSchema d = [] ∨ force = true)
    (hcreate : env.createdId = some i) :
    (copyProfile env force).success = true ∧
    (env.verifySource = none →
      (copyProfile env force).verificationMismatches =
        ["Verification skipped: could not fetch source profile"]) ∧
    (∀ s, env.verifySource = some s → env.verifyDest = none →
      (copyProfile env force).verificationMismatches =
        ["Verification skipped: could not fetch destination profile"]) := by
  have hw : ¬(validateApiSchema d ≠ [] ∧ force = false) := by
    rcases hschema with h | h
    · exact fun hcon => hcon.1 h
    · intro hcon
      rw [h] at hcon
      exact absurd hcon.2 (by simp)
  simp only [copyProfile, hfetch, if_neg hw, hcreate]
  refine ⟨by trivial, fun hs => ?_, fun s hs hd => ?_⟩
  · simp [verifyClone, hs]
  · simp [verifyClone, hs, hd]

/-- C10 witness: the concrete environment whose destination re-fetch fails
yields success with the single destination advisory. -/
theorem copyProfile_verifySkip_witness :
    (copyProfile c10Env false).success = true ∧
    (c10Env.verifySource = none →
      (copyProfile c10Env false).verificationMismatches =
        ["Verification skipped: could not fetch source profile"]) ∧
    (∀ s, c10Env.verifySource = some s → c10Env.verifyDest = none →
      (copyProfile c10Env false).verificationMismatches =
        ["Verification skipped: could not fetch destination profile"]) :=
  copyProfile_verifySkip_spec c10Env false c10Src "newid" (by decide)
    (Or.inl (by decide)) (by decide)

/-! ## C9: manage-domain not-found handling -/

/-- C9: a not-found-classified call failure makes `removeDomainFromList`
report success with the advisory "not found (already removed)", makes
`updateDomainStatus` (the enable and disable actions) report failure with
error "not found", and in every `manageDomain` run each resolved profile
yields exactly one result in order, so one profile's failure never stops the
remaining profiles from being processed. -/
theorem manageDomain_notFound_spec :
    (∀ (env : ManageEnv) (profileId err : String),
      env.call profileId = .error err → isNotFoundError err = true →
      removeDomainFromList env profileId = ⟨true, some "not found (already removed)"⟩) ∧
    (∀ (env : ManageEnv) (profileId err : String) (active : Bool),
      env.call profileId = .error err → isNotFoundError err = true →
      updateDomainStatus env profileId active = ⟨false, some "not found"⟩) ∧
    (∀ (env : ManageEnv) (action : DomainAction) (profileIds : Option (List String))
        (r : ManageSummary),
      manageDomain env action profileIds = .ok r →
      r.results = (resolveProfiles env.profiles profileIds).map (applyDomainAction env action) ∧
      r.results.length = (resolveProfiles env.profiles profileIds).length) := by
  refine ⟨?_, ?_, ?_⟩
  · intro env profileId err hcall hnf
    simp [removeDomainFromList, hcall, hnf]
  · intro env profileId err active hcall hnf
    simp [updateDomainStatus, hcall, hnf]
  · intro env action profileIds r h
    simp only [manageDomain] at h
    split_ifs at h
    simp only [Except.ok.injEq] at h
    rw [← h]
    simp

/-- C9 witness: a concrete not-found failure on one of two profiles, the
remove and disable outcomes, and the two-result summary of the disable run. -/
theorem manageDomain_notFound_witness :
    (removeDomainFromList
        ⟨[⟨"p1", "P1", none⟩, ⟨"p2", "P2", none⟩],
          fun pid => if pid = "p1" then .error "HTTP 404: not found" else .ok ()⟩ "p1" =
      ⟨true, some "not found (already removed)"⟩) ∧
    (updateDomainStatus
        ⟨[⟨"p1", "P1", none⟩, ⟨"p2", "P2", none⟩],
          fun pid => if pid = "p1" then .error "HTTP 404: not found" else .ok ()⟩ "p1" false =
      ⟨false, some "not found"⟩) ∧
    ((manageDomain
        ⟨[⟨"p1", "P1", none⟩, ⟨"p2", "P2", none⟩],
          fun pid => if pid = "p1" then .error "HTTP 404: not found" else .ok ()⟩
        DomainAction.disable none).toOption.map (fun r => r.results.length) = some 2) :=
  ⟨(manageDomain_notFound_spec.1 _ "p1" "HTTP 404: not found" (by rfl) (by decide)),
   (manageDomain_notFound_spec.2.1 _ "p1" "HTTP 404: not found" false (by rfl) (by decide)),
   by decide⟩

/-! ## C7: schema validation -/

theorem checkFields_eq (data : Val) (known skipped : List String) (path : String) :
    checkFields data known skipped path = optWarning (unknownOf data known skipped) path := by
  by_cases h : isObjectNonNull data = true <;>
    simp [checkFields, unknownOf, optWarning, h]

theorem gated_opt (v : Val) (known skipped : List String) (path : String) :
    (if truthy v = true then checkFields v known skipped path else []) =
      optWarning (gatedUnknown v known skipped) path := by
  by_cases h : truthy v = true <;> simp [h, gatedUnknown, optWarning, checkFields_eq]

theorem validateApiSchema_sections (obj : Val) :
    validateApiSchema obj =
      sectionPaths.flatMap (fun s => optWarning (unknownKeysAt obj s) s) := by
  have h1 : unknownKeysAt obj "root" = unknownOf obj knownRoot skippedRoot := rfl
  have h2 : unknownKeysAt obj "security" =
      gatedUnknown (getFieldD obj "security") knownSecurity [] := rfl
  have h3 : unknownKeysAt obj "privacy" =
      gatedUnknown (getFieldD obj "privacy") knownPrivacy [] := rfl
  have h4 : unknownKeysAt obj "parentalControl" =
      gatedUnknown (getFieldD obj "parentalControl") knownParentalControl
        skippedParentalControl := rfl
  have h5 : unknownKeysAt obj "settings" =
      gatedUnknown (getFieldD obj "settings") knownSettings [] := rfl
  have h6 : unknownKeysAt obj "settings.logs" =
      (if truthy (getFieldD obj "settings") = true then
        gatedUnknown (getFieldD (getFieldD obj "settings") "logs") knownSettingsLogs []
      else []) := rfl
  have h7 : unknownKeysAt obj "settings.performance" =
      (if truthy (getFieldD obj "settings") = true then
        gatedUnknown (getFieldD (getFieldD obj "settings") "performance")
          knownSettingsPerformance []
      else []) := rfl
  simp only [sectionPaths, List.flatMap_cons, List.flatMap_nil, List.append_nil,
    h1, h2, h3, h4, h5, h6, h7]
  unfold validateApiSchema
  rw [checkFields_eq, gated_opt, gated_opt, gated_opt, checkFields_eq, gated_opt, gated_opt]
  by_cases hst : truthy (getFieldD obj "settings") = true <;>
    simp [gatedUnknown, hst, optWarning, List.append_assoc]

theorem takeWhile_append_stop (p : Char → Bool) (l1 : List Char) (c : Char) (l2 : List Char)
    (h1 : ∀ x ∈ l1, p x = true) (h2 : p c = false) :
    (l1 ++ c :: l2).takeWhile p = l1 := by
  induction l1 with
  | nil => simp [List.takeWhile, h2]
  | cons x xs ih =>
    have hx := h1 x (List.mem_cons_self x xs)
    simp only [List.cons_append, List.takeWhile_cons, hx, if_true]
    rw [ih (fun y hy => h1 y (List.mem_cons_of_mem x hy))]

theorem pathOf_warningFor (s : String) (keys : List String)
    (h : ∀ c ∈ s.data, ¬(c = '\'')) : pathOf (warningFor s keys) = s := by
  have hdata : (warningFor s keys).data =
      "Unknown field(s) at '".data ++ (s.data ++ ('\'' :: (": ".data ++ (joinComma keys).data))) := by
    simp only [warningFor, String.data_append, List.append_assoc]
    rfl
  have hlen : ("Unknown field(s) at '".data).length = 21 := by decide
  unfold pathOf
  rw [hdata, ← hlen, List.drop_left]
  rw [show s.data ++ ('\'' :: (": ".data ++ (joinComma keys).data)) =
        s.data ++ '\'' :: (": ".data ++ (joinComma keys).data) from rfl]
  rw [takeWhile_append_stop _ s.data '\'' _ (fun x hx => by simp [h x hx]) (by decide)]

theorem count_flatMap_zero {α β : Type} [DecidableEq β] (f : α → List β) (l : List α) (b : β)
    (h : ∀ x ∈ l, (f x).count b = 0) : (l.flatMap f).count b = 0 := by
  induction l with
  | nil => simp
  | cons x xs ih =>
    simp only [List.flatMap_cons, List.count_append]
    rw [h x (List.mem_cons_self x xs), ih (fun y hy => h y (List.mem_cons_of_mem x hy))]

theorem count_flatMap_single {α β : Type} [DecidableEq α] [DecidableEq β]
    (f : α → List β) (l : List α) (a : α) (b : β)
    (ha : a ∈ l) (hnd : l.Nodup) (hone : (f a).count b = 1)
    (hother : ∀ x ∈ l, x ≠ a → (f x).count b = 0) :
    (l.flatMap f).count b = 1 := by
  induction l with
  | nil => exact absurd ha (List.not_mem_nil a)
  | cons x xs ih =>
    simp only [List.flatMap_cons, List.count_append]
    rcases List.mem_cons.mp ha with rfl | hmem
    · rw [hone, count_flatMap_zero]
      intro y hy
      exact hother y (List.mem_cons_of_mem a hy)
        (fun hya => (List.nodup_cons.mp hnd).1 (hya ▸ hy))
    · rw [hother x (List.mem_cons_self x xs)
        (fun hxa => (List.nodup_cons.mp hnd).1 (hxa ▸ hmem))]
      rw [ih hmem (List.nodup_cons.mp hnd).2
        (fun y hy hya => hother y (List.mem_cons_of_mem x hy) hya)]

theorem joinComma_data_infix (k : String) (keys : List String) (h : k ∈ keys) :
    ∃ pre post, (joinComma keys).data = pre ++ k.data ++ post := by
  induction keys with
  | nil => exact absurd h (List.not_mem_nil k)
  | cons x rest ih =>
    rcases List.mem_cons.mp h with rfl | hmem
    · cases rest with
      | nil => exact ⟨[], [], by simp [joinComma]⟩
      | cons y ys =>
        refine ⟨[], (", ".data ++ (joinComma (y :: ys)).data), ?_⟩
        simp [joinComma, String.data_append, List.append_assoc]
    · obtain ⟨p, q, hpq⟩ := ih hmem
      cases rest with
      | nil => exact absurd hmem (List.not_mem_nil k)
      | cons y ys =>
        refine ⟨x.data ++ ", ".data ++ p, q, ?_⟩
        simp [joinComma, String.data_append, hpq, List.append_assoc]

/-- C7: `validateApiSchema` returns no warnings for a profile object whose
checked sections hold only allowlisted or intentionally-skipped keys, and for
every out-of-allowlist key at a checked section it returns exactly one warning
for that section, a warning whose text contains the offending key. -/
theorem validateApiSchema_spec :
    (∀ obj : Val, (∀ s ∈ sectionPaths, unknownKeysAt obj s = []) →
      validateApiSchema obj = []) ∧
    (∀ (obj : Val) (s : String), s ∈ sectionPaths → ∀ k ∈ unknownKeysAt obj s,
      (validateApiSchema obj).count (warningFor s (unknownKeysAt obj s)) = 1 ∧
      ∃ pre post, (warningFor s (unknownKeysAt obj s)).data = pre ++ k.data ++ post) := by
  have hnoquote : ∀ s ∈ sectionPaths, ∀ c ∈ s.data, ¬(c = '\'') := by decide
  constructor
  · intro obj h
    rw [validateApiSchema_sections]
    refine List.flatMap_eq_nil_iff.mpr (fun s hs => ?_)
    rw [h s hs]
    rfl
  · intro obj s hs k hk
    have hne : unknownKeysAt obj s ≠ [] := by
      intro h0
      rw [h0] at hk
      exact absurd hk (List.not_mem_nil k)
    constructor
    · rw [validateApiSchema_sections]
      refine count_flatMap_single _ sectionPaths s _ hs (by decide) ?_ ?_
      · simp [optWarning, hne]
      · intro s' hs' hne'
        by_cases h0 : unknownKeysAt obj s' = []
        · simp [optWarning, h0]
        · simp only [optWarning, h0, if_neg]
          have hww : warningFor s' (unknownKeysAt obj s') ≠
              warningFor s (unknownKeysAt obj s) := by
            intro heq
            have := pathOf_warningFor s' (unknownKeysAt obj s') (hnoquote s' hs')
            rw [heq, pathOf_warningFor s (unknownKeysAt obj s) (hnoquote s hs)] at this
            exact hne' this.symm
          simp [h0, List.count_cons, hww]
    · obtain ⟨p, q, hpq⟩ := joinComma_data_infix k (unknownKeysAt obj s) hk
      refine ⟨"Unknown field(s) at '".data ++ s.data ++ "': ".data ++ p, q, ?_⟩
      simp only [warningFor, String.data_append, hpq, List.append_assoc]

/-! ## C4: diff row difference detection -/

theorem charListLtB_asymm (a : List Char) : ∀ b, charListLtB a b = true →
    charListLtB b a = false := by
  induction a with
  | nil =>
    intro b hb
    cases b <;> simp [charListLtB] at hb ⊢
  | cons x xs ih =>
    intro b hb
    cases b with
    | nil => simp [charListLtB] at hb
    | cons y ys =>
      simp only [charListLtB] at hb ⊢
      by_cases hxy : x = y
      · have hyx : y = x := hxy.symm
        rw [if_pos hxy] at hb
        rw [if_pos hyx]
        exact ih ys hb
      · have hyx : ¬y = x := fun h => hxy h.symm
        rw [if_neg hxy] at hb
        rw [if_neg hyx]
        have hlt : x < y := of_decide_eq_true hb
        simp [not_lt_of_gt hlt]

theorem charListLtB_conn (a : List Char) : ∀ b, charListLtB a b = false →
    charListLtB b a = false → a = b := by
  induction a with
  | nil =>
    intro b h1 _
    cases b with
    | nil => rfl
    | cons y ys => simp [charListLtB] at h1
  | cons x xs ih =>
    intro b h1 h2
    cases b with
    | nil => simp [charListLtB] at h2
    | cons y ys =>
      simp only [charListLtB] at h1 h2
      by_cases hxy : x = y
      · have hyx : y = x := hxy.symm
        rw [if_pos hxy] at h1
        rw [if_pos hyx] at h2
        rw [hxy, ih ys h1 h2]
      · have hyx : ¬y = x := fun h => hxy h.symm
        rw [if_neg hxy] at h1
        rw [if_neg hyx] at h2
        have hnlt1 : ¬x < y := of_decide_eq_false h1
        have hnlt2 : ¬y < x := of_decide_eq_false h2
        exact absurd (le_antisymm (le_of_not_lt hnlt2) (le_of_not_lt hnlt1)) hxy

theorem charListLtB_trans (a : List Char) : ∀ b c, charListLtB a b = true →
    charListLtB b c = true → charListLtB a c = true := by
  induction a with
  | nil =>
    intro b c hab hbc
    cases c with
    | nil =>
      cases b with
      | nil => exact hab
      | cons y ys => simp [charListLtB] at hbc
    | cons z zs => simp [charListLtB]
  | cons x xs ih =>
    intro b c hab hbc
    cases b with
    | nil => simp [charListLtB] at hab
    | cons y ys =>
      cases c with
      | nil => simp [charListLtB] at hbc
      | cons z zs =>
        simp only [charListLtB] at hab hbc ⊢
        by_cases hxy : x = y <;> by_cases hyz : y = z
        · rw [if_pos hxy] at hab
          rw [if_pos hyz] at hbc
          rw [if_pos (hxy.trans hyz)]
          exact ih ys zs hab hbc
        · rw [if_neg hyz] at hbc
          have hxz : ¬x = z := fun h => hyz ((hxy.symm.trans h))
          rw [if_neg hxz]
          rw [hxy]
          exact hbc
        · rw [if_neg hxy] at hab
          have hxz : ¬x = z := fun h => hxy (h.trans hyz.symm)
          rw [if_neg hxz, ← hyz]
          exact hab
        · rw [if_neg hxy] at hab
          rw [if_neg hyz] at hbc
          have h1 : x < y := of_decide_eq_true hab
          have h2 : y < z := of_decide_eq_true hbc
          have hlt : x < z := lt_trans h1 h2
          rw [if_neg (ne_of_lt hlt)]
          exact decide_eq_true hlt

theorem strLeB_total (a b : String) : strLeB a b = true ∨ strLeB b a = true := by
  unfold strLeB
  rcases h : charListLtB b.data a.data with _ | _
  · left
    simp [h]
  · right
    simp [charListLtB_asymm _ _ h]

theorem strLeB_trans (a b c : String) (h1 : strLeB a b = true) (h2 : strLeB b c = true) :
    strLeB a c = true := by
  unfold strLeB at h1 h2 ⊢
  simp only [Bool.not_eq_true'] at h1 h2 ⊢
  rcases hca : charListLtB c.data a.data with _ | _
  · rfl
  · exfalso
    rcases hab : charListLtB a.data b.data with _ | _
    · have hab' := charListLtB_conn a.data b.data hab h1
      rw [hab'] at hca
      simp [h2] at hca
    · have := charListLtB_trans c.data a.data b.data hca hab
      simp [h2] at this

theorem strLeB_antisymm (a b : String) (h1 : strLeB a b = true) (h2 : strLeB b a = true) :
    a = b := by
  unfold strLeB at h1 h2
  simp only [Bool.not_eq_true'] at h1 h2
  have := charListLtB_conn a.data b.data h2 h1
  exact congrArg String.mk this

theorem insertValBy_perm (key : Val → String) (x : Val) (l : List Val) :
    (insertValBy key x l).Perm (x :: l) := by
  induction l with
  | nil => simp [insertValBy]
  | cons y ys ih =>
    simp only [insertValBy]
    by_cases h : strLeB (key x) (key y) = true
    · rw [if_pos h]
    · rw [if_neg h]
      exact (ih.cons y).trans (List.Perm.swap x y ys)

theorem sortValsBy_perm (key : Val → String) (l : List Val) :
    (sortValsBy key l).Perm l := by
  induction l with
  | nil => simp [sortValsBy]
  | cons x xs ih =>
    exact (insertValBy_perm key x (sortValsBy key xs)).trans (ih.cons x)

theorem mem_insertValBy (key : Val → String) (x z : Val) (l : List Val) :
    z ∈ insertValBy key x l ↔ z = x ∨ z ∈ l :=
  ⟨fun h => List.mem_cons.mp ((insertValBy_perm key x l).mem_iff.mp h),
   fun h => (insertValBy_perm key x l).mem_iff.mpr (List.mem_cons.mpr h)⟩

theorem insertValBy_pairwise (key : Val → String) (x : Val) (l : List Val)
    (h : l.Pairwise (fun a b => strLeB (key a) (key b) = true)) :
    (insertValBy key x l).Pairwise (fun a b => strLeB (key a) (key b) = true) := by
  induction l with
  | nil => simp [insertValBy]
  | cons y ys ih =>
    simp only [insertValBy]
    by_cases hxy : strLeB (key x) (key y) = true
    · rw [if_pos hxy]
      refine List.Pairwise.cons (fun z hz => ?_) h
      rcases List.mem_cons.mp hz with rfl | hz
      · exact hxy
      · exact strLeB_trans _ _ _ hxy ((List.pairwise_cons.mp h).1 z hz)
    · rw [if_neg hxy]
      have hyx : strLeB (key y) (key x) = true := by
        rcases strLeB_total (key x) (key y) with ht | ht
        · exact absurd ht hxy
        · exact ht
      refine List.Pairwise.cons (fun z hz => ?_) (ih (List.pairwise_cons.mp h).2)
      rcases (mem_insertValBy key x z ys).mp hz with rfl | hz
      · exact hyx
      · exact (List.pairwise_cons.mp h).1 z hz

theorem sortValsBy_pairwise (key : Val → String) (l : List Val) :
    (sortValsBy key l).Pairwise (fun a b => strLeB (key a) (key b) = true) := by
  induction l with
  | nil => simp [sortValsBy]
  | cons x xs ih => exact insertValBy_pairwise key x (sortValsBy key xs) ih

theorem sorted_perm_unique (key : Val → String) (l1 : List Val) : ∀ (l2 : List Val),
    l1.Perm l2 →
    l1.Pairwise (fun a b => strLeB (key a) (key b) = true) →
    l2.Pairwise (fun a b => strLeB (key a) (key b) = true) →
    (∀ x ∈ l1, ∀ y ∈ l1, key x = key y → x = y) → l1 = l2 := by
  induction l1 with
  | nil =>
    intro l2 hp _ _ _
    exact hp.nil_eq
  | cons x xs ih =>
    intro l2 hp h1 h2 hinj
    cases l2 with
    | nil => exact absurd hp.symm.nil_eq (by simp)
    | cons y ys =>
      have hxy : x = y := by
        by_cases hxyeq : x = y
        · exact hxyeq
        · have hxmem : x ∈ y :: ys := hp.mem_iff.mp (List.mem_cons_self x xs)
          have hymem : y ∈ x :: xs := hp.symm.mem_iff.mp (List.mem_cons_self y ys)
          have hxys : x ∈ ys := by
            rcases List.mem_cons.mp hxmem with h | h
            · exact absurd h hxyeq
            · exact h
          have hyxs : y ∈ xs := by
            rcases List.mem_cons.mp hymem with h | h
            · exact absurd h (fun hh => hxyeq hh.symm)
            · exact h
          have hr1 : strLeB (key x) (key y) = true := (List.pairwise_cons.mp h1).1 y hyxs
          have hr2 : strLeB (key y) (key x) = true := (List.pairwise_cons.mp h2).1 x hxys
          exact hinj x (List.mem_cons_self x xs) y (List.mem_cons_of_mem x hyxs)
            (strLeB_antisymm _ _ hr1 hr2)
      subst hxy
      have htail := hp.cons_inv
      rw [ih ys htail (List.pairwise_cons.mp h1).2 (List.pairwise_cons.mp h2).2
        (fun a ha b hb hab =>
          hinj a (List.mem_cons_of_mem x ha) b (List.mem_cons_of_mem x hb) hab)]

theorem normalize_perm_of_objects (l l' : List Val) (hp : l.Perm l')
    (hobj : ∀ x ∈ l, isObjectNonNull x = true)
    (hid : ∀ x ∈ l, ∃ s, idOrString x = Val.vStr s) :
    normalizeListForComparison (.vArr l) = normalizeListForComparison (.vArr l') := by
  cases l with
  | nil =>
    rw [hp.nil_eq]
  | cons v vs =>
    cases l' with
    | nil => exact absurd hp.symm.nil_eq (by simp)
    | cons w ws =>
      have hobj' : ∀ x ∈ w :: ws, isObjectNonNull x = true :=
        fun x hx => hobj x (hp.symm.mem_iff.mp hx)
      simp only [normalizeListForComparison,
        hobj v (List.mem_cons_self v vs), hobj' w (List.mem_cons_self w ws), if_true]
      have hsorteq : sortValsBy Val.jsStr ((v :: vs).map idOrString) =
          sortValsBy Val.jsStr ((w :: ws).map idOrString) := by
        refine sorted_perm_unique Val.jsStr _ _ ?_
          (sortValsBy_pairwise _ _) (sortValsBy_pairwise _ _) ?_
        · exact ((sortValsBy_perm _ _).trans (hp.map idOrString)).trans
            (sortValsBy_perm _ _).symm
        · intro a ha b hb hab
          have ha' : a ∈ (v :: vs).map idOrString := (sortValsBy_perm _ _).mem_iff.mp ha
          have hb' : b ∈ (v :: vs).map idOrString := (sortValsBy_perm _ _).mem_iff.mp hb
          obtain ⟨xa, hxa, rfl⟩ := List.mem_map.mp ha'
          obtain ⟨xb, hxb, rfl⟩ := List.mem_map.mp hb'
          obtain ⟨sa, hsa⟩ := hid xa hxa
          obtain ⟨sb, hsb⟩ := hid xb hxb
          rw [hsa, hsb] at hab ⊢
          simp only [Val.jsStr] at hab
          rw [hab]
      rw [hsorteq]

theorem all_beq_headD_iff {β : Type} [BEq β] [LawfulBEq β] (l : List β) (d : β) :
    (l.all (fun v => v == l.headD d)) = true ↔ ∀ a ∈ l, ∀ b ∈ l, a = b := by
  cases l with
  | nil => simp
  | cons x xs =>
    simp only [List.headD_cons, List.all_cons, List.all_eq_true, Bool.and_eq_true, beq_iff_eq]
    constructor
    · rintro ⟨-, hall⟩ a ha b hb
      have hav : ∀ c ∈ x :: xs, c = x := by
        intro c hc
        rcases List.mem_cons.mp hc with rfl | hc
        · rfl
        · exact hall c hc
      rw [hav a ha, hav b hb]
    · intro h
      constructor
      · simp
      · exact fun c hc => h c (List.mem_cons_of_mem x hc) x (List.mem_cons_self x xs)

theorem forall_mem_map_pair {α β : Type} (f : α → β) (l : List α) :
    (∀ a ∈ l.map f, ∀ b ∈ l.map f, a = b) ↔ ∀ x ∈ l, ∀ y ∈ l, f x = f y := by
  constructor
  · intro h x hx y hy
    exact h _ (List.mem_map_of_mem f hx) _ (List.mem_map_of_mem f hy)
  · intro h a ha b hb
    obtain ⟨x, hx, rfl⟩ := List.mem_map.mp ha
    obtain ⟨y, hy, rfl⟩ := List.mem_map.mp hb
    exact h x hx y hy

theorem mkSettingsRow_hasDiff (allData : List (String × ProfileDiffData)) (sct : SectionName)
    (field : String) :
    (mkSettingsRow allData sct field).hasDiff = false ↔
      ∀ pd ∈ allData, ∀ pd' ∈ allData,
        normalizeListForComparison (sectionGet (pd.2.sectionOf sct) field) =
        normalizeListForComparison (sectionGet (pd'.2.sectionOf sct) field) := by
  have hbool : ∀ b : Bool, ((!b) = false ↔ b = true) := by decide
  simp only [mkSettingsRow]
  rw [hbool, all_beq_headD_iff, forall_mem_map_pair]

theorem mem_insertStr (x z : String) (l : List String) :
    z ∈ insertStr x l ↔ z = x ∨ z ∈ l := by
  induction l with
  | nil => simp [insertStr]
  | cons y ys ih =>
    simp only [insertStr]
    by_cases h : strLeB x y = true
    · rw [if_pos h]
      simp
    · rw [if_neg h]
      simp only [List.mem_cons, ih]
      tauto

theorem mem_sortStrings (l : List String) (z : String) : z ∈ sortStrings l ↔ z ∈ l := by
  induction l with
  | nil => simp [sortStrings]
  | cons x xs ih => simp [sortStrings, mem_insertStr, ih]

theorem mem_foldl_insertNewStr (l : List String) : ∀ (acc : List String) (z : String),
    z ∈ l.foldl insertNewStr acc ↔ z ∈ acc ∨ z ∈ l := by
  induction l with
  | nil => simp
  | cons k ks ih =>
    intro acc z
    simp only [List.foldl_cons, ih]
    unfold insertNewStr
    by_cases h : k ∈ acc
    · rw [if_pos h]
      simp only [List.mem_cons]
      constructor
      · rintro (h1 | h1)
        · exact Or.inl h1
        · exact Or.inr (Or.inr h1)
      · rintro (h1 | rfl | h1)
        · exact Or.inl h1
        · exact Or.inl h
        · exact Or.inr h1
    · rw [if_neg h]
      simp only [List.mem_append, List.mem_cons, List.mem_singleton]
      tauto

theorem mem_dedupFirst (l : List String) (z : String) : z ∈ dedupFirst l ↔ z ∈ l := by
  unfold dedupFirst
  simp [mem_foldl_insertNewStr]

theorem domainStates_hasDiff (states : List (Option Bool))
    (hex : ∃ s ∈ states, s.isSome = true) :
    ((states.any (fun s => s == none) ||
      (decide (0 < (states.filterMap id).length) &&
        !((states.filterMap id).all
          (fun s => s == (states.filterMap id).headD false)))) = false ↔
    ∀ a ∈ states, ∀ b ∈ states, a = b) := by
  obtain ⟨s0, hs0, hsome0⟩ := hex
  obtain ⟨b0, rfl⟩ := Option.isSome_iff_exists.mp hsome0
  have hmemf : b0 ∈ states.filterMap id := List.mem_filterMap.mpr ⟨some b0, hs0, rfl⟩
  have hlen : 0 < (states.filterMap id).length := List.length_pos_of_mem hmemf
  constructor
  · intro h a ha b hb
    rw [Bool.or_eq_false_iff] at h
    obtain ⟨hnone, hrest⟩ := h
    have hnn : ∀ s ∈ states, s ≠ none := by
      intro s hs hcontra
      have : states.any (fun s => s == none) = true :=
        List.any_eq_true.mpr ⟨s, hs, by simp [hcontra]⟩
      simp [this] at hnone
    have hallb : (states.filterMap id).all
        (fun s => s == (states.filterMap id).headD false) = true := by
      rcases Bool.and_eq_false_iff.mp hrest with h | h
      · exact absurd (decide_eq_true hlen) (by simp [h])
      · simpa using h
    have hpair := (all_beq_headD_iff (states.filterMap id) false).mp hallb
    obtain ⟨av, rfl⟩ := Option.ne_none_iff_exists'.mp (hnn a ha)
    obtain ⟨bv, rfl⟩ := Option.ne_none_iff_exists'.mp (hnn b hb)
    rw [hpair av (List.mem_filterMap.mpr ⟨some av, ha, rfl⟩)
      bv (List.mem_filterMap.mpr ⟨some bv, hb, rfl⟩)]
  · intro h
    have hall : ∀ s ∈ states, s = some b0 := fun s hs => h s hs _ hs0
    have h1 : states.any (fun s => s == none) = false := by
      rw [Bool.eq_false_iff]
      intro hc
      obtain ⟨s, hs, hsn⟩ := List.any_eq_true.mp hc
      rw [hall s hs] at hsn
      simp at hsn
    have h2 : (states.filterMap id).all
        (fun s => s == (states.filterMap id).headD false) = true := by
      apply (all_beq_headD_iff _ false).mpr
      intro u hu v hv
      obtain ⟨su, hsu, hsueq⟩ := List.mem_filterMap.mp hu
      obtain ⟨sv, hsv, hsveq⟩ := List.mem_filterMap.mp hv
      have h1' := hall su hsu
      have h2' := hall sv hsv
      rw [h1'] at hsueq
      rw [h2'] at hsveq
      simp only [id] at hsueq hsveq
      rw [← Option.some.inj hsueq, ← Option.some.inj hsveq]
    rw [h1, h2]
    simp

theorem mkDomainRow_label (allData : List (String × ProfileDiffData)) (listType : ListType)
    (domain : String) : (mkDomainRow allData listType domain).label = domain := rfl

theorem compareDenylistAllowlist_hasDiff (allData : List (String × ProfileDiffData))
    (listType : ListType) (row : DiffRow)
    (hrow : row ∈ compareDenylistAllowlist allData listType) :
    (row.hasDiff = false ↔ ∀ pd ∈ allData, ∀ pd' ∈ allData,
      lookupKey row.label (pd.2.listOf listType) =
      lookupKey row.label (pd'.2.listOf listType)) := by
  simp only [compareDenylistAllowlist] at hrow
  split_ifs at hrow with hemp
  · exact absurd hrow (List.not_mem_nil row)
  · obtain ⟨dom, hdom, rfl⟩ := List.mem_map.mp hrow
    have hdommem := (mem_dedupFirst _ _).mp ((mem_sortStrings _ _).mp hdom)
    obtain ⟨pd0, hpd0, hdompd0⟩ := List.mem_flatMap.mp hdommem
    have hex : ∃ s ∈ allData.map (fun pd => lookupKey dom (pd.2.listOf listType)),
        s.isSome = true :=
      ⟨lookupKey dom (pd0.2.listOf listType), List.mem_map_of_mem _ hpd0,
        (lookupKey_isSome_iff _ _).mpr hdompd0⟩
    have hchar := domainStates_hasDiff _ hex
    rw [mkDomainRow_label]
    have hdef : (mkDomainRow allData listType dom).hasDiff =
        ((allData.map (fun pd => lookupKey dom (pd.2.listOf listType))).any
            (fun s => s == none) ||
          (decide (0 < ((allData.map (fun pd => lookupKey dom (pd.2.listOf listType))).filterMap
              id).length) &&
            !(((allData.map (fun pd => lookupKey dom (pd.2.listOf listType))).filterMap id).all
              (fun s => s ==
                ((allData.map (fun pd => lookupKey dom (pd.2.listOf listType))).filterMap
                  id).headD false)))) := rfl
    rw [hdef, hchar, forall_mem_map_pair]

/-- C4 counterexample: the permutation claim fails on a mixed-type array.
With `settings.web3` holding `[1, "1"]` in both profiles the row has no diff,
but permuting the second profile's array to `["1", 1]` (a permutation of the
first) flips `hasDiff` to true, because the JS sort keys `String(1)` and
`String("1")` coincide, so the stable sort preserves the differing input
orders and the JSON images differ. -/
theorem diffRow_perm_counterexample :
    ((mkSettingsRow c4DataEq SectionName.settings "web3").hasDiff = false) ∧
    ((mkSettingsRow c4DataPerm SectionName.settings "web3").hasDiff = true) ∧
    ([Val.vNum 1, Val.vStr "1"].Perm [Val.vStr "1", Val.vNum 1]) :=
  ⟨by decide, by decide, List.Perm.swap (Val.vStr "1") (Val.vNum 1) []⟩

/-- C4 amended: a settings row's `hasDiff` is false exactly when every
profile's raw value has the same `normalizeListForComparison` image; a
denylist/allowlist row's `hasDiff` is false exactly when every profile holds
the row's domain in the same state; and permuting an array value never changes
the normalized image provided the array's elements are all objects whose
extracted ids are strings (for mixed-type arrays the counterexample shows the
invariance fails). -/
theorem diffRow_hasDiff_spec :
    (∀ (allData : List (String × ProfileDiffData)) (sct : SectionName) (field : String),
      (mkSettingsRow allData sct field).hasDiff = false ↔
        ∀ pd ∈ allData, ∀ pd' ∈ allData,
          normalizeListForComparison (sectionGet (pd.2.sectionOf sct) field) =
          normalizeListForComparison (sectionGet (pd'.2.sectionOf sct) field)) ∧
    (∀ (l l' : List Val), l.Perm l' →
      (∀ x ∈ l, isObjectNonNull x = true) →
      (∀ x ∈ l, ∃ s, idOrString x = Val.vStr s) →
      normalizeListForComparison (.vArr l) = normalizeListForComparison (.vArr l')) ∧
    (∀ (allData : List (String × ProfileDiffData)) (listType : ListType) (row : DiffRow),
      row ∈ compareDenylistAllowlist allData listType →
      (row.hasDiff = false ↔ ∀ pd ∈ allData, ∀ pd' ∈ allData,
        lookupKey row.label (pd.2.listOf listType) =
        lookupKey row.label (pd'.2.listOf listType))) :=
  ⟨mkSettingsRow_hasDiff, normalize_perm_of_objects, compareDenylistAllowlist_hasDiff⟩

/-! ## C8: the reconstructed payload strips server-generated fields -/

theorem lookupKey_append {α : Type} (d : String) (l1 l2 : List (String × α)) :
    lookupKey d (l1 ++ l2) =
      match lookupKey d l1 with
      | some v => some v
      | none => lookupKey d l2 := by
  induction l1 with
  | nil => simp [lookupKey]
  | cons e rest ih => by_cases h : e.1 = d <;> simp [lookupKey, h, ih]

theorem lookupKey_optField (z k : String) (c : Bool) (v : Val) :
    lookupKey z (optField c k v) = if c = true ∧ k = z then some v else none := by
  cases c <;> by_cases h : k = z <;> simp [optField, lookupKey, h]

theorem mem_map_fst_optField (c : Bool) (key : String) (v : Val) (z : String)
    (h : z ∈ (optField c key v).map Prod.fst) : z = key := by
  cases c
  · simp [optField] at h
  · simp [optField] at h
    exact h

theorem lookupKey_optField_append (z k : String) (c : Bool) (v : Val)
    (rest : List (String × Val)) :
    lookupKey z (optField c k v ++ rest) =
      if c = true ∧ k = z then some v else lookupKey z rest := by
  cases c <;> by_cases h : k = z <;> simp [optField, lookupKey, h]

theorem getFieldD_vObj (kvs : List (String × Val)) (k : String) :
    getFieldD (Val.vObj kvs) k = (lookupKey k kvs).getD Val.vUndef := rfl

theorem reconstructPayload_keys (src : Val) (k : String)
    (hk : k ∈ jsKeys (reconstructPayload src)) :
    k ∈ ["name", "security", "privacy", "parentalControl", "denylist", "allowlist",
      "settings"] := by
  simp only [reconstructPayload, jsKeys, List.singleton_append, List.map_cons,
    List.map_append, List.mem_cons, List.mem_append] at hk
  rcases hk with ((((((rfl | hk) | hk) | hk) | hk) | hk) | hk)
  · simp
  · rw [mem_map_fst_optField _ _ _ _ hk]
    simp
  · rw [mem_map_fst_optField _ _ _ _ hk]
    simp
  · rw [mem_map_fst_optField _ _ _ _ hk]
    simp
  · rw [mem_map_fst_optField _ _ _ _ hk]
    simp
  · rw [mem_map_fst_optField _ _ _ _ hk]
    simp
  · rw [mem_map_fst_optField _ _ _ _ hk]
    simp

theorem reconstructParentalControl_keys (pc : Val) (k : String)
    (hk : k ∈ jsKeys (reconstructParentalControl pc)) :
    k ∈ ["safeSearch", "youtubeRestrictedMode", "blockBypass", "services", "categories"] := by
  simp only [reconstructParentalControl, jsKeys, List.cons_append, List.nil_append,
    List.map_cons, List.map_append, List.mem_cons, List.mem_append] at hk
  rcases hk with rfl | rfl | rfl | hk | hk
  · simp
  · simp
  · simp
  · rw [mem_map_fst_optField _ _ _ _ hk]
    simp
  · rw [mem_map_fst_optField _ _ _ _ hk]
    simp

theorem getFieldD_reconstructPayload_pc (src : Val) :
    getFieldD (reconstructPayload src) "parentalControl" =
      if truthy (getFieldD src "parentalControl") = true then
        reconstructParentalControl (getFieldD src "parentalControl")
      else Val.vUndef := by
  by_cases hpc : truthy (getFieldD src "parentalControl") = true <;>
    simp [reconstructPayload, getFieldD_vObj, lookupKey, lookupKey_optField_append,
      lookupKey_optField, hpc]

/-- C8: for every source profile object, `reconstructPayload` emits no `id`,
`fingerprint` or `setup` key at the root, and no `recreation` key under
`parentalControl`, whatever fields the source holds. -/
theorem reconstructPayload_strips (src : Val) :
    "id" ∉ jsKeys (reconstructPayload src) ∧
    "fingerprint" ∉ jsKeys (reconstructPayload src) ∧
    "setup" ∉ jsKeys (reconstructPayload src) ∧
    "recreation" ∉ jsKeys (getFieldD (reconstructPayload src) "parentalControl") := by
  refine ⟨fun h => ?_, fun h => ?_, fun h => ?_, fun h => ?_⟩
  · exact absurd (reconstructPayload_keys src _ h) (by decide)
  · exact absurd (reconstructPayload_keys src _ h) (by decide)
  · exact absurd (reconstructPayload_keys src _ h) (by decide)
  · rw [getFieldD_reconstructPayload_pc] at h
    split_ifs at h
    · exact absurd (reconstructParentalControl_keys _ _ h) (by decide)
    · simp [jsKeys] at h

end NextDNS
